import Mathlib

/-!
Verification of the PhiFit side-challenge / token-ledger core.

Shallow embedding of the TypeScript source:
  * token ledger utilities        (src/unnamed/part_001, tokens module)
  * side-challenge engine         (src/unnamed/part_001, side-challenges module)
  * routes: propose / accept / decline / submit / void
  * leaderboard and payout        (src/lib/leaderboard.ts)
  * perfect-week award and recalculation (src/unnamed/part_001, part_015)

Database tables are modelled as Lean lists; prisma where-filters become
List.filter; prisma createMany becomes list append; JS Map with insertion
order becomes an association list.  Decimal columns are modelled as ℚ,
integer columns as ℤ.  String-tagged enum columns stay strings, as in the
source schema.
-/

deriving instance DecidableEq for Except

namespace PhiFit

/-- One row of the TokenLedger table.  weekId is optional in the schema;
reasons are the string tags used by the source. -/
structure LedgerEntry where
  challengeId : String
  userId : String
  weekId : Option String
  delta : Int
  reason : String
  relatedEntityId : Option String
deriving DecidableEq

/-- One row of the SideChallengeSubmission table (joined shape used by the
routes: userId and numeric value are all the logic reads). -/
structure Submission where
  userId : String
  valueNumber : ℚ
deriving DecidableEq

/-- One row of the SideChallenge table, with its submissions included, as the
prisma queries in the source fetch it. -/
structure SideChallenge where
  id : String
  challengeId : String
  weekId : String
  createdByUserId : String
  opponentUserId : String
  status : String
  metricType : String
  targetValue : Option ℚ
  stakeTokens : Int
  winnerUserId : Option String
  resolutionNote : Option String
  submissions : List Submission
deriving DecidableEq

/-- getTokenBalance (tokens module): sum of ledger deltas for one
(challenge, user) pair; prisma aggregate _sum.delta. -/
def getTokenBalance (ledger : List LedgerEntry) (challengeId userId : String) : Int :=
  ((ledger.filter (fun e => e.challengeId = challengeId && e.userId = userId)).map
    (fun e => e.delta)).sum

/-- Status filter used by getAvailableBalance and by the week-lock cleanup:
the three non-terminal side-challenge statuses the prisma queries select. -/
def isOpenSideChallengeStatus (s : String) : Bool :=
  s = "PROPOSED" || s = "ACCEPTED" || s = "PENDING_REVIEW"

/-- Result shape of getAvailableBalance. -/
structure AvailableBalance where
  total : Int
  available : Int
  staked : Int
deriving DecidableEq

/-- getAvailableBalance (side-challenges module): total balance minus tokens
staked in the user's open side challenges.  Creator counts immediately;
opponent counts only in ACCEPTED / PENDING_REVIEW status. -/
def getAvailableBalance (ledger : List LedgerEntry) (sideChallenges : List SideChallenge)
    (challengeId userId : String) : AvailableBalance :=
  let total := getTokenBalance ledger challengeId userId
  let stakedChallenges := sideChallenges.filter (fun c =>
    c.challengeId = challengeId &&
    (c.createdByUserId = userId || c.opponentUserId = userId) &&
    isOpenSideChallengeStatus c.status)
  let staked := stakedChallenges.foldl (fun acc c =>
    if c.createdByUserId = userId then acc + c.stakeTokens
    else if c.status = "ACCEPTED" || c.status = "PENDING_REVIEW" then acc + c.stakeTokens
    else acc) 0
  { total := total, available := total - staked, staked := staked }

/-- stakeSideChallengeTokens: the single negative-delta ledger row the
function inserts. -/
def stakeSideChallengeTokens (challengeId weekId sideChallengeId userId : String)
    (amount : Int) : List LedgerEntry :=
  [{ challengeId := challengeId, userId := userId, weekId := some weekId,
     delta := -amount, reason := "SIDE_CHALLENGE_STAKE",
     relatedEntityId := some sideChallengeId }]

/-- Result record of calculateWinner. -/
structure WinnerCalculation where
  winnerId : String
  reason : String
  winnerUserId : Option String
deriving DecidableEq

/-- calculateWinner (side-challenges module).  Throwing is modelled as
Except.error.  JS template literals become string concatenation with
toString on the rational values. -/
def calculateWinner (metricType : String) (targetValue : Option ℚ)
    (creatorValue opponentValue : ℚ) (creatorUserId opponentUserId : String) :
    Except String WinnerCalculation :=
  if metricType = "HIGHER_WINS" then
    if creatorValue > opponentValue then
      .ok { winnerId := "creator",
            reason := "Higher value wins: " ++ toString creatorValue ++ " > " ++
              toString opponentValue,
            winnerUserId := some creatorUserId }
    else if opponentValue > creatorValue then
      .ok { winnerId := "opponent",
            reason := "Higher value wins: " ++ toString opponentValue ++ " > " ++
              toString creatorValue,
            winnerUserId := some opponentUserId }
    else
      .ok { winnerId := "tie",
            reason := "Tie: Both achieved " ++ toString creatorValue,
            winnerUserId := none }
  else if metricType = "LOWER_WINS" then
    if creatorValue < opponentValue then
      .ok { winnerId := "creator",
            reason := "Lower value wins: " ++ toString creatorValue ++ " < " ++
              toString opponentValue,
            winnerUserId := some creatorUserId }
    else if opponentValue < creatorValue then
      .ok { winnerId := "opponent",
            reason := "Lower value wins: " ++ toString opponentValue ++ " < " ++
              toString creatorValue,
            winnerUserId := some opponentUserId }
    else
      .ok { winnerId := "tie",
            reason := "Tie: Both achieved " ++ toString creatorValue,
            winnerUserId := none }
  else if metricType = "TARGET_THRESHOLD" then
    match targetValue with
    | none => .error "Target value required for TARGET_THRESHOLD metric type"
    | some target =>
      let creatorDistance := |creatorValue - target|
      let opponentDistance := |opponentValue - target|
      if creatorDistance < opponentDistance then
        .ok { winnerId := "creator",
              reason := "Closest to target " ++ toString target ++ ": Creator " ++
                toString creatorValue ++ " (distance " ++ toString creatorDistance ++
                ") vs Opponent " ++ toString opponentValue ++ " (distance " ++
                toString opponentDistance ++ ")",
              winnerUserId := some creatorUserId }
      else if opponentDistance < creatorDistance then
        .ok { winnerId := "opponent",
              reason := "Closest to target " ++ toString target ++ ": Opponent " ++
                toString opponentValue ++ " (distance " ++ toString opponentDistance ++
                ") vs Creator " ++ toString creatorValue ++ " (distance " ++
                toString creatorDistance ++ ")",
              winnerUserId := some opponentUserId }
      else
        .ok { winnerId := "tie",
              reason := "Tie: Both equally distant from target " ++ toString target,
              winnerUserId := none }
  else .error ("Unknown metric type: " ++ metricType)

/-- resolveSideChallengeTokens: the ledger rows inserted on resolution.
Tie (winnerId null) refunds both stakes; otherwise the winner gets one
credit of twice the stake. -/
def resolveSideChallengeTokens (challengeId weekId sideChallengeId : String)
    (winnerId : Option String) (creatorUserId opponentUserId : String)
    (stakeAmount : Int) : List LedgerEntry :=
  match winnerId with
  | none =>
    [{ challengeId := challengeId, userId := creatorUserId, weekId := some weekId,
       delta := stakeAmount, reason := "SIDE_CHALLENGE_TIE_REFUND",
       relatedEntityId := some sideChallengeId },
     { challengeId := challengeId, userId := opponentUserId, weekId := some weekId,
       delta := stakeAmount, reason := "SIDE_CHALLENGE_TIE_REFUND",
       relatedEntityId := some sideChallengeId }]
  | some winner =>
    [{ challengeId := challengeId, userId := winner, weekId := some weekId,
       delta := stakeAmount * 2, reason := "SIDE_CHALLENGE_WIN",
       relatedEntityId := some sideChallengeId }]

/-- voidSideChallengeTokens: creator is always refunded, opponent only when
wasAccepted is true. -/
def voidSideChallengeTokens (challengeId weekId sideChallengeId : String)
    (creatorUserId opponentUserId : String) (stakeAmount : Int)
    (wasAccepted : Bool) : List LedgerEntry :=
  let refunds :=
    [{ challengeId := challengeId, userId := creatorUserId, weekId := some weekId,
       delta := stakeAmount, reason := "SIDE_CHALLENGE_VOID_REFUND",
       relatedEntityId := some sideChallengeId : LedgerEntry }]
  if wasAccepted then
    refunds ++
      [{ challengeId := challengeId, userId := opponentUserId, weekId := some weekId,
         delta := stakeAmount, reason := "SIDE_CHALLENGE_VOID_REFUND",
         relatedEntityId := some sideChallengeId }]
  else refunds

/-!
Lifecycle compositions: the ledger rows a side challenge produces over its
whole life, as the route transactions compose them.
Propose inserts the creator stake; accept inserts the opponent stake;
decline and organizer void call voidSideChallengeTokens (decline with
wasAccepted = false); resolution calls resolveSideChallengeTokens.
-/

/-- Ledger rows of a wager that was proposed, accepted and resolved
(decisively when winnerUserId is some, as a tie when none). -/
def resolvedLifecycleEntries (challengeId weekId sideChallengeId : String)
    (creatorUserId opponentUserId : String) (winnerUserId : Option String)
    (stake : Int) : List LedgerEntry :=
  stakeSideChallengeTokens challengeId weekId sideChallengeId creatorUserId stake ++
  stakeSideChallengeTokens challengeId weekId sideChallengeId opponentUserId stake ++
  resolveSideChallengeTokens challengeId weekId sideChallengeId winnerUserId
    creatorUserId opponentUserId stake

/-- Ledger rows of a wager voided (or declined: the decline route passes
wasAccepted = false to the same refund function) while still PROPOSED. -/
def voidedBeforeAcceptEntries (challengeId weekId sideChallengeId : String)
    (creatorUserId opponentUserId : String) (stake : Int) : List LedgerEntry :=
  stakeSideChallengeTokens challengeId weekId sideChallengeId creatorUserId stake ++
  voidSideChallengeTokens challengeId weekId sideChallengeId creatorUserId
    opponentUserId stake false

/-- Ledger rows of a wager voided after acceptance (void route computes
wasAccepted = true from status ACCEPTED / PENDING_REVIEW). -/
def voidedAfterAcceptEntries (challengeId weekId sideChallengeId : String)
    (creatorUserId opponentUserId : String) (stake : Int) : List LedgerEntry :=
  stakeSideChallengeTokens challengeId weekId sideChallengeId creatorUserId stake ++
  stakeSideChallengeTokens challengeId weekId sideChallengeId opponentUserId stake ++
  voidSideChallengeTokens challengeId weekId sideChallengeId creatorUserId
    opponentUserId stake true

/-- Net ledger change of one user over a list of entries. -/
def netDelta (entries : List LedgerEntry) (userId : String) : Int :=
  ((entries.filter (fun e => e.userId = userId)).map (fun e => e.delta)).sum

/-- C1: side-challenge token conservation.  For every terminal side challenge
with stake S, the net of its own ledger entries per party is: decisive
resolution gives the winner +S (stake debit plus one 2S credit) and the
loser -S; tie resolution gives both parties 0; void or decline before
acceptance gives the creator 0 and produces no entry at all for the
opponent; void after acceptance gives both parties 0. -/
theorem sideChallenge_token_conservation
    (ch wk sc creator opponent : String) (stake : Int)
    (hne : creator ≠ opponent) :
    (netDelta (resolvedLifecycleEntries ch wk sc creator opponent
        (some creator) stake) creator = stake ∧
      netDelta (resolvedLifecycleEntries ch wk sc creator opponent
        (some creator) stake) opponent = -stake) ∧
    (netDelta (resolvedLifecycleEntries ch wk sc creator opponent
        (some opponent) stake) opponent = stake ∧
      netDelta (resolvedLifecycleEntries ch wk sc creator opponent
        (some opponent) stake) creator = -stake) ∧
    (netDelta (resolvedLifecycleEntries ch wk sc creator opponent
        none stake) creator = 0 ∧
      netDelta (resolvedLifecycleEntries ch wk sc creator opponent
        none stake) opponent = 0) ∧
    (netDelta (voidedBeforeAcceptEntries ch wk sc creator opponent stake)
        creator = 0 ∧
      (voidedBeforeAcceptEntries ch wk sc creator opponent stake).filter
        (fun e => e.userId = opponent) = [] ∧
      netDelta (voidedBeforeAcceptEntries ch wk sc creator opponent stake)
        opponent = 0) ∧
    (netDelta (voidedAfterAcceptEntries ch wk sc creator opponent stake)
        creator = 0 ∧
      netDelta (voidedAfterAcceptEntries ch wk sc creator opponent stake)
        opponent = 0) := by
  have hne' : opponent ≠ creator := fun h => hne h.symm
  simp only [netDelta, resolvedLifecycleEntries, voidedBeforeAcceptEntries,
    voidedAfterAcceptEntries, stakeSideChallengeTokens,
    resolveSideChallengeTokens, voidSideChallengeTokens, List.filter_append,
    List.filter, decide_eq_true_eq, hne, hne', if_true, if_false]
  simp [hne, hne']
  omega

/-- Witness for C1 at concrete inputs: distinct parties alice and bob with
stake 3; the decisive-resolution winner nets +3. -/
theorem sideChallenge_token_conservation_witness :
    ("alice" : String) ≠ "bob" ∧
    netDelta (resolvedLifecycleEntries "c" "w" "s" "alice" "bob"
      (some "alice") 3) "alice" = 3 :=
  ⟨by decide,
    (sideChallenge_token_conservation "c" "w" "s" "alice" "bob" 3
      (by decide)).1.1⟩

/-- Spec-side definition for C4 (follows the specification text): the sum of
the stakes of the user's own still-open wagers in the competition, counting
the creator's stake from the moment of proposal but the opponent's stake
only once the wager has been accepted (status ACCEPTED or the post-accept
PENDING_REVIEW). -/
def stakedTokensSpec (sideChallenges : List SideChallenge)
    (challengeId userId : String) : Int :=
  ((sideChallenges.filter (fun c =>
      c.challengeId = challengeId && isOpenSideChallengeStatus c.status &&
      (c.createdByUserId = userId ||
        (c.opponentUserId = userId &&
          (c.status = "ACCEPTED" || c.status = "PENDING_REVIEW"))))).map
    (fun c => c.stakeTokens)).sum

/-- The imperative staked-token accumulation of getAvailableBalance equals
the spec-side sum, for any accumulator.  Helper for C4. -/
theorem staked_foldl_eq_spec (challengeId userId : String)
    (l : List SideChallenge) (acc : Int) :
    ((l.filter (fun c =>
        c.challengeId = challengeId &&
        (c.createdByUserId = userId || c.opponentUserId = userId) &&
        isOpenSideChallengeStatus c.status)).foldl (fun acc c =>
      if c.createdByUserId = userId then acc + c.stakeTokens
      else if c.status = "ACCEPTED" || c.status = "PENDING_REVIEW" then
        acc + c.stakeTokens
      else acc) acc) = acc + stakedTokensSpec l challengeId userId := by
  induction l generalizing acc with
  | nil => simp [stakedTokensSpec]
  | cons c t ih =>
    by_cases hch : c.challengeId = challengeId <;>
    by_cases hcr : c.createdByUserId = userId <;>
    by_cases hop : c.opponentUserId = userId <;>
    by_cases hsa : c.status = "ACCEPTED" <;>
    by_cases hsp : c.status = "PENDING_REVIEW" <;>
    by_cases hspr : c.status = "PROPOSED" <;>
    simp_all [stakedTokensSpec, List.filter_cons, isOpenSideChallengeStatus] <;>
    omega

/-- C4: availableBalance returns total, staked and available with
total the sum of the user's ledger deltas for the competition, staked the
spec-side sum over the user's still-open wagers (creator from proposal,
opponent only once accepted), and available = total - staked. -/
theorem availableBalance_spec (ledger : List LedgerEntry)
    (sideChallenges : List SideChallenge) (challengeId userId : String) :
    getAvailableBalance ledger sideChallenges challengeId userId =
      { total := ((ledger.filter (fun e =>
            e.challengeId = challengeId && e.userId = userId)).map
          (fun e => e.delta)).sum,
        available := ((ledger.filter (fun e =>
            e.challengeId = challengeId && e.userId = userId)).map
          (fun e => e.delta)).sum -
          stakedTokensSpec sideChallenges challengeId userId,
        staked := stakedTokensSpec sideChallenges challengeId userId } := by
  have h := staked_foldl_eq_spec challengeId userId sideChallenges 0
  simp only [getAvailableBalance, getTokenBalance, h, zero_add]

/-- The string s embeds the rendering of the rational q: s splits as some
prefix, the rendering, and some suffix. -/
def embedsValue (q : ℚ) (s : String) : Prop :=
  ∃ a b : String, s = a ++ toString q ++ b

/-- embedsValue restated as a character-list infix, giving decidability at
concrete inputs. -/
theorem embedsValue_iff_data (q : ℚ) (s : String) :
    embedsValue q s ↔ (toString q).data <:+: s.data := by
  constructor
  · rintro ⟨a, b, rfl⟩
    exact ⟨a.data, b.data, by simp [String.data_append]⟩
  · rintro ⟨l, r, h⟩
    refine ⟨⟨l⟩, ⟨r⟩, String.ext ?_⟩
    simp only [String.data_append]
    exact h.symm

/-- Helper producing an embedsValue witness from an explicit split. -/
theorem embedsValue_of_eq (q : ℚ) (s a b : String)
    (h : s = a ++ toString q ++ b) : embedsValue q s :=
  ⟨a, b, h⟩

/-- HigherWins behaviour of calculateWinner (helper for C3). -/
theorem calculateWinner_higher (topt : Option ℚ) (cv ov : ℚ) (cu ou : String) :
    ∃ r, calculateWinner "HIGHER_WINS" topt cv ov cu ou = Except.ok r ∧
      (ov < cv → r.winnerUserId = some cu ∧
        embedsValue cv r.reason ∧ embedsValue ov r.reason) ∧
      (cv < ov → r.winnerUserId = some ou ∧
        embedsValue cv r.reason ∧ embedsValue ov r.reason) ∧
      (cv = ov → r.winnerUserId = none ∧ embedsValue cv r.reason) := by
  rcases lt_trichotomy cv ov with h | h | h
  · refine ⟨⟨"opponent",
      "Higher value wins: " ++ toString ov ++ " > " ++ toString cv,
      some ou⟩, ?_, ?_, ?_, ?_⟩
    · unfold calculateWinner
      rw [if_pos rfl, if_neg (lt_asymm h), if_pos h]
    · exact fun hgt => absurd hgt (lt_asymm h)
    · refine fun _ => ⟨rfl, ?_, ?_⟩
      · exact embedsValue_of_eq cv _
          ("Higher value wins: " ++ toString ov ++ " > ") ""
          (by simp [String.append_assoc, String.append_empty])
      · exact embedsValue_of_eq ov _ "Higher value wins: "
          (" > " ++ toString cv) (by simp [String.append_assoc])
    · exact fun heq => absurd heq (ne_of_lt h)
  · subst h
    refine ⟨⟨"tie",
      "Tie: Both achieved " ++ toString cv,
      none⟩, ?_, ?_, ?_, ?_⟩
    · unfold calculateWinner
      rw [if_pos rfl, if_neg (lt_irrefl cv), if_neg (lt_irrefl cv)]
    · exact fun hgt => absurd hgt (lt_irrefl cv)
    · exact fun hgt => absurd hgt (lt_irrefl cv)
    · exact fun _ => ⟨rfl, embedsValue_of_eq cv _ "Tie: Both achieved " ""
        (by simp [String.append_assoc, String.append_empty])⟩
  · refine ⟨⟨"creator",
      "Higher value wins: " ++ toString cv ++ " > " ++ toString ov,
      some cu⟩, ?_, ?_, ?_, ?_⟩
    · unfold calculateWinner
      rw [if_pos rfl, if_pos h]
    · refine fun _ => ⟨rfl, ?_, ?_⟩
      · exact embedsValue_of_eq cv _ "Higher value wins: "
          (" > " ++ toString ov) (by simp [String.append_assoc])
      · exact embedsValue_of_eq ov _
          ("Higher value wins: " ++ toString cv ++ " > ") ""
          (by simp [String.append_assoc, String.append_empty])
    · exact fun hlt => absurd hlt (lt_asymm h)
    · exact fun heq => absurd heq (ne_of_gt h)

/-- LowerWins behaviour of calculateWinner (helper for C3). -/
theorem calculateWinner_lower (topt : Option ℚ) (cv ov : ℚ) (cu ou : String) :
    ∃ r, calculateWinner "LOWER_WINS" topt cv ov cu ou = Except.ok r ∧
      (cv < ov → r.winnerUserId = some cu ∧
        embedsValue cv r.reason ∧ embedsValue ov r.reason) ∧
      (ov < cv → r.winnerUserId = some ou ∧
        embedsValue cv r.reason ∧ embedsValue ov r.reason) ∧
      (cv = ov → r.winnerUserId = none ∧ embedsValue cv r.reason) := by
  rcases lt_trichotomy cv ov with h | h | h
  · refine ⟨⟨"creator",
      "Lower value wins: " ++ toString cv ++ " < " ++ toString ov,
      some cu⟩, ?_, ?_, ?_, ?_⟩
    · unfold calculateWinner
      rw [if_neg (by decide), if_pos rfl, if_pos h]
    · refine fun _ => ⟨rfl, ?_, ?_⟩
      · exact embedsValue_of_eq cv _ "Lower value wins: "
          (" < " ++ toString ov) (by simp [String.append_assoc])
      · exact embedsValue_of_eq ov _
          ("Lower value wins: " ++ toString cv ++ " < ") ""
          (by simp [String.append_assoc, String.append_empty])
    · exact fun hlt => absurd hlt (lt_asymm h)
    · exact fun heq => absurd heq (ne_of_lt h)
  · subst h
    refine ⟨⟨"tie",
      "Tie: Both achieved " ++ toString cv,
      none⟩, ?_, ?_, ?_, ?_⟩
    · unfold calculateWinner
      rw [if_neg (by decide), if_pos rfl, if_neg (lt_irrefl cv),
        if_neg (lt_irrefl cv)]
    · exact fun hlt => absurd hlt (lt_irrefl cv)
    · exact fun hlt => absurd hlt (lt_irrefl cv)
    · exact fun _ => ⟨rfl, embedsValue_of_eq cv _ "Tie: Both achieved " ""
        (by simp [String.append_assoc, String.append_empty])⟩
  · refine ⟨⟨"opponent",
      "Lower value wins: " ++ toString ov ++ " < " ++ toString cv,
      some ou⟩, ?_, ?_, ?_, ?_⟩
    · unfold calculateWinner
      rw [if_neg (by decide), if_pos rfl, if_neg (lt_asymm h), if_pos h]
    · exact fun hlt => absurd hlt (lt_asymm h)
    · refine fun _ => ⟨rfl, ?_, ?_⟩
      · exact embedsValue_of_eq cv _
          ("Lower value wins: " ++ toString ov ++ " < ") ""
          (by simp [String.append_assoc, String.append_empty])
      · exact embedsValue_of_eq ov _ "Lower value wins: "
          (" < " ++ toString cv) (by simp [String.append_assoc])
    · exact fun heq => absurd heq (ne_of_gt h)

/-- TargetThreshold behaviour of calculateWinner (helper for C3): the side
closer to the target wins; equal distance is a tie whose reason embeds the
target (not the submitted values). -/
theorem calculateWinner_target (target cv ov : ℚ) (cu ou : String) :
    ∃ r, calculateWinner "TARGET_THRESHOLD" (some target) cv ov cu ou =
      Except.ok r ∧
      (|cv - target| < |ov - target| → r.winnerUserId = some cu ∧
        embedsValue cv r.reason ∧ embedsValue ov r.reason ∧
        embedsValue target r.reason) ∧
      (|ov - target| < |cv - target| → r.winnerUserId = some ou ∧
        embedsValue cv r.reason ∧ embedsValue ov r.reason ∧
        embedsValue target r.reason) ∧
      (|cv - target| = |ov - target| → r.winnerUserId = none ∧
        embedsValue target r.reason) := by
  rcases lt_trichotomy (|cv - target|) (|ov - target|) with h | h | h
  · refine ⟨⟨"creator",
      "Closest to target " ++ toString target ++ ": Creator " ++
        toString cv ++ " (distance " ++ toString (|cv - target|) ++
        ") vs Opponent " ++ toString ov ++ " (distance " ++
        toString (|ov - target|) ++ ")",
      some cu⟩, ?_, ?_, ?_, ?_⟩
    · unfold calculateWinner
      rw [if_neg (by decide), if_neg (by decide), if_pos rfl]
      dsimp only
      rw [if_pos h]
    · refine fun _ => ⟨rfl, ?_, ?_, ?_⟩
      · exact embedsValue_of_eq cv _
          ("Closest to target " ++ toString target ++ ": Creator ")
          (" (distance " ++ toString (|cv - target|) ++ ") vs Opponent " ++
            toString ov ++ " (distance " ++ toString (|ov - target|) ++ ")")
          (by simp [String.append_assoc])
      · exact embedsValue_of_eq ov _
          ("Closest to target " ++ toString target ++ ": Creator " ++
            toString cv ++ " (distance " ++ toString (|cv - target|) ++
            ") vs Opponent ")
          (" (distance " ++ toString (|ov - target|) ++ ")")
          (by simp [String.append_assoc])
      · exact embedsValue_of_eq target _ "Closest to target "
          (": Creator " ++ toString cv ++ " (distance " ++
            toString (|cv - target|) ++ ") vs Opponent " ++ toString ov ++
            " (distance " ++ toString (|ov - target|) ++ ")")
          (by simp [String.append_assoc])
    · exact fun hlt => absurd hlt (lt_asymm h)
    · exact fun heq => absurd heq (ne_of_lt h)
  · refine ⟨⟨"tie",
      "Tie: Both equally distant from target " ++ toString target,
      none⟩, ?_, ?_, ?_, ?_⟩
    · unfold calculateWinner
      rw [if_neg (by decide), if_neg (by decide), if_pos rfl]
      dsimp only
      rw [if_neg (by rw [h]; exact lt_irrefl _),
        if_neg (by rw [h]; exact lt_irrefl _)]
    · exact fun hlt => absurd hlt (by rw [h]; exact lt_irrefl _)
    · exact fun hlt => absurd hlt (by rw [h]; exact lt_irrefl _)
    · exact fun _ => ⟨rfl, embedsValue_of_eq target _
        "Tie: Both equally distant from target " ""
        (by simp [String.append_assoc, String.append_empty])⟩
  · refine ⟨⟨"opponent",
      "Closest to target " ++ toString target ++ ": Opponent " ++
        toString ov ++ " (distance " ++ toString (|ov - target|) ++
        ") vs Creator " ++ toString cv ++ " (distance " ++
        toString (|cv - target|) ++ ")",
      some ou⟩, ?_, ?_, ?_, ?_⟩
    · unfold calculateWinner
      rw [if_neg (by decide), if_neg (by decide), if_pos rfl]
      dsimp only
      rw [if_neg (lt_asymm h), if_pos h]
    · exact fun hlt => absurd hlt (lt_asymm h)
    · refine fun _ => ⟨rfl, ?_, ?_, ?_⟩
      · exact embedsValue_of_eq cv _
          ("Closest to target " ++ toString target ++ ": Opponent " ++
            toString ov ++ " (distance " ++ toString (|ov - target|) ++
            ") vs Creator ")
          (" (distance " ++ toString (|cv - target|) ++ ")")
          (by simp [String.append_assoc])
      · exact embedsValue_of_eq ov _
          ("Closest to target " ++ toString target ++ ": Opponent ")
          (" (distance " ++ toString (|ov - target|) ++ ") vs Creator " ++
            toString cv ++ " (distance " ++ toString (|cv - target|) ++ ")")
          (by simp [String.append_assoc])
      · exact embedsValue_of_eq target _ "Closest to target "
          (": Opponent " ++ toString ov ++ " (distance " ++
            toString (|ov - target|) ++ ") vs Creator " ++ toString cv ++
            " (distance " ++ toString (|cv - target|) ++ ")")
          (by simp [String.append_assoc])
    · exact fun heq => absurd heq (ne_of_gt h)

/-- C3 (amended): calculateWinner is a pure function of metric type, target,
the two submitted values and the two user ids.  HigherWins: strictly greater
wins, equal is a tie; LowerWins: strictly smaller wins, equal is a tie;
TargetThreshold without a target is an error; with a target the strictly
smaller distance wins and equal distances tie.  The result carries the
winning user id (none for a tie) and a reason string embedding the compared
values in decisive outcomes and in equal-value ties; in a TargetThreshold
equal-distance tie the reason embeds the target instead of the submitted
values. -/
theorem calculateWinner_spec (topt : Option ℚ) (target cv ov : ℚ)
    (cu ou : String) :
    (∃ r, calculateWinner "HIGHER_WINS" topt cv ov cu ou = Except.ok r ∧
      (ov < cv → r.winnerUserId = some cu ∧
        embedsValue cv r.reason ∧ embedsValue ov r.reason) ∧
      (cv < ov → r.winnerUserId = some ou ∧
        embedsValue cv r.reason ∧ embedsValue ov r.reason) ∧
      (cv = ov → r.winnerUserId = none ∧ embedsValue cv r.reason)) ∧
    (∃ r, calculateWinner "LOWER_WINS" topt cv ov cu ou = Except.ok r ∧
      (cv < ov → r.winnerUserId = some cu ∧
        embedsValue cv r.reason ∧ embedsValue ov r.reason) ∧
      (ov < cv → r.winnerUserId = some ou ∧
        embedsValue cv r.reason ∧ embedsValue ov r.reason) ∧
      (cv = ov → r.winnerUserId = none ∧ embedsValue cv r.reason)) ∧
    (calculateWinner "TARGET_THRESHOLD" none cv ov cu ou =
      Except.error "Target value required for TARGET_THRESHOLD metric type") ∧
    (∃ r, calculateWinner "TARGET_THRESHOLD" (some target) cv ov cu ou =
      Except.ok r ∧
      (|cv - target| < |ov - target| → r.winnerUserId = some cu ∧
        embedsValue cv r.reason ∧ embedsValue ov r.reason ∧
        embedsValue target r.reason) ∧
      (|ov - target| < |cv - target| → r.winnerUserId = some ou ∧
        embedsValue cv r.reason ∧ embedsValue ov r.reason ∧
        embedsValue target r.reason) ∧
      (|cv - target| = |ov - target| → r.winnerUserId = none ∧
        embedsValue target r.reason)) :=
  ⟨calculateWinner_higher topt cv ov cu ou,
    calculateWinner_lower topt cv ov cu ou,
    rfl,
    calculateWinner_target target cv ov cu ou⟩

/-- Witness for C3 at concrete inputs: TargetThreshold with target 10,
values 9 and 12; the creator is strictly closer and wins. -/
theorem calculateWinner_spec_witness :
    |(9 : ℚ) - 10| < |(12 : ℚ) - 10| ∧
    ∃ r, calculateWinner "TARGET_THRESHOLD" (some 10) 9 12 "alice" "bob" =
      Except.ok r ∧ r.winnerUserId = some "alice" := by
  have h := (calculateWinner_spec none 10 9 12 "alice" "bob").2.2.2
  obtain ⟨r, hr, hwin, -, -⟩ := h
  exact ⟨by norm_num, r, hr, (hwin (by norm_num)).1⟩

/-- Counterexample for C3 as frozen: in a TargetThreshold equal-distance tie
the resolution reason embeds neither compared value (values 8 and 12 against
target 10 produce a reason mentioning only the target). -/
theorem calculateWinner_target_tie_counterexample :
    calculateWinner "TARGET_THRESHOLD" (some 10) 8 12 "alice" "bob" =
      Except.ok ⟨"tie", "Tie: Both equally distant from target 10", none⟩ ∧
    ¬ embedsValue 8 "Tie: Both equally distant from target 10" ∧
    ¬ embedsValue 12 "Tie: Both equally distant from target 10" := by
  have h8 : |(8 : ℚ) - 10| = 2 := by
    rw [show (8 : ℚ) - 10 = -2 by norm_num, abs_neg, abs_of_nonneg] <;> norm_num
  have h12 : |(12 : ℚ) - 10| = 2 := by
    rw [show (12 : ℚ) - 10 = 2 by norm_num, abs_of_nonneg] <;> norm_num
  refine ⟨?_, ?_, ?_⟩
  · unfold calculateWinner
    rw [if_neg (by decide), if_neg (by decide), if_pos rfl]
    dsimp only
    rw [h8, h12, if_neg (lt_irrefl 2), if_neg (lt_irrefl 2)]
    rfl
  · rw [embedsValue_iff_data]
    decide
  · rw [embedsValue_iff_data]
    decide

/-- Challenge (competition) row: the columns getPayoutSummary reads, plus
the percent columns of the newer schema revision that the claim's formulas
refer to. -/
structure Challenge where
  id : String
  numberOfWeeks : Nat
  buyInAmount : ℚ
  weeklyPrizeAmount : ℚ
  grandPrizeAmount : Option ℚ
  weeklyPrizePercent : ℚ
  grandPrizePercent : ℚ
deriving DecidableEq

/-- Result shape of getPayoutSummary. -/
structure PayoutSummary where
  totalPot : ℚ
  weeklyPayoutTotal : ℚ
  grandPrize : ℚ
  weeklyPrize : ℚ
  participantCount : Nat
deriving DecidableEq

/-- JS truthiness of an optional numeric column: null, undefined and 0 are
falsy (the source tests the raw column with a ternary). -/
def jsTruthyNum : Option ℚ → Bool
  | none => false
  | some q => q ≠ 0

/-- getPayoutSummary (src/lib/leaderboard.ts): totalPot from buy-in times
participant count; weeklyPayoutTotal from the fixed weeklyPrizeAmount times
week count; grandPrize from the fixed grandPrizeAmount when truthy, else
the remainder of the pot. -/
def getPayoutSummary (challenge : Challenge) (participantCount : Nat) :
    PayoutSummary :=
  let buyIn := challenge.buyInAmount
  let weeklyPrize := challenge.weeklyPrizeAmount
  let totalPot := buyIn * participantCount
  let weeklyPayoutTotal := weeklyPrize * challenge.numberOfWeeks
  let grandPrize :=
    if jsTruthyNum challenge.grandPrizeAmount then
      challenge.grandPrizeAmount.getD 0
    else totalPot - weeklyPayoutTotal
  { totalPot := totalPot, weeklyPayoutTotal := weeklyPayoutTotal,
    grandPrize := grandPrize, weeklyPrize := weeklyPrize,
    participantCount := participantCount }

/-- Concrete challenge of the C6 example: buy-in 10, 4 weeks,
weeklyPrizePercent 10 and grandPrizePercent 30, no fixed prize amounts. -/
def percentStyleChallenge : Challenge :=
  { id := "c1", numberOfWeeks := 4, buyInAmount := 10,
    weeklyPrizeAmount := 0, grandPrizeAmount := none,
    weeklyPrizePercent := 10, grandPrizePercent := 30 }

/-- Counterexample for C6 as frozen: on the percent-configured example
challenge with 4 participants the code returns weeklyPayoutTotal 0 and
grandPrize 40, not the claimed percentage derivations 16 and 12. -/
theorem getPayoutSummary_percent_counterexample :
    (getPayoutSummary percentStyleChallenge 4).weeklyPayoutTotal = 0 ∧
    percentStyleChallenge.weeklyPrizePercent / 100 *
      (getPayoutSummary percentStyleChallenge 4).totalPot *
      (percentStyleChallenge.numberOfWeeks : ℚ) = 16 ∧
    (getPayoutSummary percentStyleChallenge 4).grandPrize = 40 ∧
    percentStyleChallenge.grandPrizePercent / 100 *
      (getPayoutSummary percentStyleChallenge 4).totalPot = 12 ∧
    (0 : ℚ) ≠ 16 ∧ (40 : ℚ) ≠ 12 := by
  refine ⟨?_, ?_, ?_, ?_, by norm_num, by norm_num⟩ <;>
    norm_num [getPayoutSummary, percentStyleChallenge, jsTruthyNum]

/-- C6 (amended): totalPool = buyInAmount times participantCount holds, but
the weekly and grand prizes come from the fixed-amount columns:
weeklyPayoutTotal = weeklyPrizeAmount times numberOfWeeks, and grandPrize is
the explicit grandPrizeAmount when present and nonzero, otherwise
totalPool minus weeklyPayoutTotal; the percent columns are not consulted. -/
theorem getPayoutSummary_spec (c : Challenge) (n : Nat) :
    (getPayoutSummary c n).totalPot = c.buyInAmount * n ∧
    (getPayoutSummary c n).weeklyPayoutTotal =
      c.weeklyPrizeAmount * c.numberOfWeeks ∧
    (∀ g, c.grandPrizeAmount = some g → g ≠ 0 →
      (getPayoutSummary c n).grandPrize = g) ∧
    (jsTruthyNum c.grandPrizeAmount = false →
      (getPayoutSummary c n).grandPrize =
        c.buyInAmount * n - c.weeklyPrizeAmount * c.numberOfWeeks) ∧
    (getPayoutSummary c n).participantCount = n := by
  refine ⟨rfl, rfl, ?_, ?_, rfl⟩
  · intro g hg hne
    simp [getPayoutSummary, jsTruthyNum, hg, hne]
  · intro hf
    simp [getPayoutSummary, hf]

/-- Witness for C6 at concrete inputs: the example challenge with 4
participants has total pot 40, and with no explicit grand amount the grand
prize is the pot remainder. -/
theorem getPayoutSummary_spec_witness :
    (getPayoutSummary percentStyleChallenge 4).totalPot =
      percentStyleChallenge.buyInAmount * 4 ∧
    jsTruthyNum percentStyleChallenge.grandPrizeAmount = false ∧
    (getPayoutSummary percentStyleChallenge 4).grandPrize =
      percentStyleChallenge.buyInAmount * 4 -
        percentStyleChallenge.weeklyPrizeAmount *
          percentStyleChallenge.numberOfWeeks :=
  ⟨(getPayoutSummary_spec percentStyleChallenge 4).1, by decide,
    (getPayoutSummary_spec percentStyleChallenge 4).2.2.2.1 (by decide)⟩

/-- TaskTemplate row: the columns the perfect-week and leaderboard logic
reads. -/
structure TaskTemplate where
  id : String
  challengeId : String
  active : Bool
  points : Int
deriving DecidableEq

/-- Participant row, with the joined user displayName the leaderboard
selects. -/
structure Participant where
  userId : String
  challengeId : String
  displayName : String
deriving DecidableEq

/-- Completion row, with the joined user displayName and current task points
the queries select. -/
structure Completion where
  userId : String
  taskTemplateId : String
  weekId : String
  challengeId : String
  displayName : String
  taskPoints : Int
deriving DecidableEq

/-- detectPerfectWeeks (tokens module): count active task templates (empty
result if none); for each participant of the challenge, the set of distinct
task-template ids completed in the week (a JS Set, modelled by dedup) must
have size equal to the active-task count. -/
def detectPerfectWeeks (tasks : List TaskTemplate) (participants : List Participant)
    (completions : List Completion) (challengeId weekId : String) : List String :=
  let activeTaskCount :=
    (tasks.filter (fun t => t.challengeId = challengeId && t.active)).length
  if activeTaskCount = 0 then []
  else
    ((participants.filter (fun p => p.challengeId = challengeId)).filter
      (fun p =>
        ((((completions.filter (fun c => c.weekId = weekId)).filter
          (fun c => c.userId = p.userId)).map
            (fun c => c.taskTemplateId)).dedup).length = activeTaskCount)).map
      (fun p => p.userId)

/-- Spec-side notion for C8: the distinct TaskTemplate ids the user
completed in the week. -/
def completedTemplateIds (completions : List Completion)
    (weekId userId : String) : List String :=
  (((completions.filter (fun c => c.weekId = weekId)).filter
    (fun c => c.userId = userId)).map (fun c => c.taskTemplateId)).dedup

/-- C8 (amended): a user is detected iff they are a participant of the
competition, there is at least one active TaskTemplate, and the number of
distinct TaskTemplate ids they completed that week (completions of inactive
templates included) equals the active-template count; in particular the
result is empty when there are no active templates. -/
theorem detectPerfectWeeks_spec (tasks : List TaskTemplate)
    (participants : List Participant) (completions : List Completion)
    (challengeId weekId u : String) :
    u ∈ detectPerfectWeeks tasks participants completions challengeId weekId ↔
      (∃ p ∈ participants, p.challengeId = challengeId ∧ p.userId = u) ∧
      0 < (tasks.filter (fun t => t.challengeId = challengeId && t.active)).length ∧
      (completedTemplateIds completions weekId u).length =
        (tasks.filter (fun t => t.challengeId = challengeId && t.active)).length := by
  unfold detectPerfectWeeks completedTemplateIds
  by_cases h : (tasks.filter (fun t => t.challengeId = challengeId && t.active)).length = 0
  · simp [h]
  · simp only [h, if_false, List.mem_map, List.mem_filter, decide_eq_true_eq]
    constructor
    · rintro ⟨p, ⟨⟨hp, hpc⟩, hlen⟩, rfl⟩
      exact ⟨⟨p, hp, hpc, rfl⟩, Nat.pos_of_ne_zero h, hlen⟩
    · rintro ⟨⟨p, hp, hpc, rfl⟩, -, hlen⟩
      exact ⟨p, ⟨⟨hp, hpc⟩, hlen⟩, rfl⟩

/-- C8 counterexample data: one active task tA and one inactive task tB;
the only participant completed only the inactive tB that week. -/
def cxTasks : List TaskTemplate :=
  [{ id := "tA", challengeId := "ch", active := true, points := 1 },
   { id := "tB", challengeId := "ch", active := false, points := 1 }]

/-- C8 counterexample participants. -/
def cxParticipants : List Participant :=
  [{ userId := "u1", challengeId := "ch", displayName := "U" }]

/-- C8 counterexample completions: u1 completed only the inactive tB. -/
def cxCompletions : List Completion :=
  [{ userId := "u1", taskTemplateId := "tB", weekId := "wk",
     challengeId := "ch", displayName := "U", taskPoints := 1 }]

/-- Counterexample for C8 as frozen: u1 is detected as a perfect week even
though u1 did not complete the active template tA (the completion of the
inactive tB makes the distinct-id count match the active count). -/
theorem detectPerfectWeeks_counterexample :
    "u1" ∈ detectPerfectWeeks cxTasks cxParticipants cxCompletions "ch" "wk" ∧
    ¬ (∀ t ∈ cxTasks.filter (fun t => t.challengeId = "ch" && t.active),
        ∃ c ∈ cxCompletions, c.userId = "u1" ∧ c.weekId = "wk" ∧
          c.taskTemplateId = t.id) := by
  decide

/-- The perfect-week ledger row awarded to one user. -/
def mkPerfectWeekEntry (challengeId weekId userId : String) : LedgerEntry :=
  { challengeId := challengeId, userId := userId, weekId := some weekId,
    delta := 1, reason := "PERFECT_WEEK_EARNED", relatedEntityId := none }

/-- hasReceivedPerfectWeekToken (tokens module): a PERFECT_WEEK_EARNED
ledger row for this (challenge, week, user) already exists. -/
def hasReceivedPerfectWeekToken (ledger : List LedgerEntry)
    (challengeId weekId userId : String) : Bool :=
  ledger.any (fun e => e.challengeId = challengeId && e.weekId = some weekId &&
    e.userId = userId && e.reason = "PERFECT_WEEK_EARNED")

/-- awardPerfectWeekTokens (tokens module): the createMany batch of one +1
PERFECT_WEEK_EARNED row per user id. -/
def awardPerfectWeekTokens (challengeId weekId : String)
    (userIds : List String) : List LedgerEntry :=
  userIds.map (mkPerfectWeekEntry challengeId weekId)

/-- Result shape of awardPerfectWeekTokensSafe together with the ledger it
leaves behind. -/
structure AwardResult where
  ledger : List LedgerEntry
  awarded : Nat
  alreadyAwarded : Nat
deriving DecidableEq

/-- awardPerfectWeekTokensSafe (tokens module): detect qualifiers, return
early if none, split them by hasReceivedPerfectWeekToken, and award the
remainder in one batch. -/
def awardPerfectWeekTokensSafe (ledger : List LedgerEntry)
    (tasks : List TaskTemplate) (participants : List Participant)
    (completions : List Completion) (challengeId weekId : String) :
    AwardResult :=
  let perfectWeekUserIds :=
    detectPerfectWeeks tasks participants completions challengeId weekId
  if perfectWeekUserIds.length = 0 then
    { ledger := ledger, awarded := 0, alreadyAwarded := 0 }
  else
    let usersToAward := perfectWeekUserIds.filter
      (fun u => ! hasReceivedPerfectWeekToken ledger challengeId weekId u)
    let alreadyAwarded := (perfectWeekUserIds.filter
      (fun u => hasReceivedPerfectWeekToken ledger challengeId weekId u)).length
    { ledger := ledger ++ awardPerfectWeekTokens challengeId weekId usersToAward,
      awarded := usersToAward.length,
      alreadyAwarded := alreadyAwarded }

/-- hasReceivedPerfectWeekToken distributes over ledger append (helper). -/
theorem hasReceived_append (l₁ l₂ : List LedgerEntry)
    (challengeId weekId u : String) :
    hasReceivedPerfectWeekToken (l₁ ++ l₂) challengeId weekId u =
      (hasReceivedPerfectWeekToken l₁ challengeId weekId u ||
        hasReceivedPerfectWeekToken l₂ challengeId weekId u) := by
  unfold hasReceivedPerfectWeekToken
  exact List.any_append

/-- A ledger containing the user's perfect-week row reports it (helper). -/
theorem hasReceived_of_mem (l : List LedgerEntry) (challengeId weekId u : String)
    (h : mkPerfectWeekEntry challengeId weekId u ∈ l) :
    hasReceivedPerfectWeekToken l challengeId weekId u = true := by
  unfold hasReceivedPerfectWeekToken
  refine List.any_eq_true.mpr ⟨mkPerfectWeekEntry challengeId weekId u, h, ?_⟩
  simp [mkPerfectWeekEntry]

/-- After one safe award run, every detected qualifier has a perfect-week
row in the resulting ledger (helper for C7). -/
theorem hasReceived_after_safeAward (ledger : List LedgerEntry)
    (tasks : List TaskTemplate) (participants : List Participant)
    (completions : List Completion) (challengeId weekId u : String)
    (hu : u ∈ detectPerfectWeeks tasks participants completions
      challengeId weekId) :
    hasReceivedPerfectWeekToken
      (awardPerfectWeekTokensSafe ledger tasks participants completions
        challengeId weekId).ledger challengeId weekId u = true := by
  unfold awardPerfectWeekTokensSafe
  by_cases h0 : (detectPerfectWeeks tasks participants completions
      challengeId weekId).length = 0
  · exact absurd (List.eq_nil_of_length_eq_zero h0) (List.ne_nil_of_mem hu)
  · simp only [h0, if_false]
    rw [hasReceived_append]
    by_cases hrec : hasReceivedPerfectWeekToken ledger challengeId weekId u = true
    · rw [hrec, Bool.true_or]
    · have hmem : mkPerfectWeekEntry challengeId weekId u ∈
          awardPerfectWeekTokens challengeId weekId
            ((detectPerfectWeeks tasks participants completions challengeId
              weekId).filter
              (fun v => ! hasReceivedPerfectWeekToken ledger challengeId weekId v)) := by
        refine List.mem_map_of_mem _ ?_
        refine List.mem_filter.mpr ⟨hu, ?_⟩
        simp [hrec]
      rw [hasReceived_of_mem _ _ _ _ hmem, Bool.or_true]

/-- C7: awardPerfectWeekTokensSafe is idempotent.  Running it twice for the
same (competition, week) with unchanged completions awards only on the
first run: the second run reports awarded = 0 and leaves the ledger exactly
as the first run left it, because each qualifier already has a
PERFECT_WEEK_EARNED row for that (competition, week, user). -/
theorem awardPerfectWeek_idempotent (ledger : List LedgerEntry)
    (tasks : List TaskTemplate) (participants : List Participant)
    (completions : List Completion) (challengeId weekId : String) :
    (awardPerfectWeekTokensSafe
      (awardPerfectWeekTokensSafe ledger tasks participants completions
        challengeId weekId).ledger
      tasks participants completions challengeId weekId).awarded = 0 ∧
    (awardPerfectWeekTokensSafe
      (awardPerfectWeekTokensSafe ledger tasks participants completions
        challengeId weekId).ledger
      tasks participants completions challengeId weekId).ledger =
      (awardPerfectWeekTokensSafe ledger tasks participants completions
        challengeId weekId).ledger := by
  set L1 := (awardPerfectWeekTokensSafe ledger tasks participants completions
    challengeId weekId).ledger with hL1
  have hfilter : (detectPerfectWeeks tasks participants completions
      challengeId weekId).filter
      (fun u => ! hasReceivedPerfectWeekToken L1 challengeId weekId u) = [] := by
    refine List.filter_eq_nil_iff.mpr ?_
    intro u hu
    simp [hL1, hasReceived_after_safeAward ledger tasks participants
      completions challengeId weekId u hu]
  constructor
  · show (awardPerfectWeekTokensSafe L1 tasks participants completions
      challengeId weekId).awarded = 0
    unfold awardPerfectWeekTokensSafe
    by_cases h0 : (detectPerfectWeeks tasks participants completions
        challengeId weekId).length = 0
    · simp [h0]
    · simp only [h0, if_false]
      rw [hfilter]
      rfl
  · show (awardPerfectWeekTokensSafe L1 tasks participants completions
      challengeId weekId).ledger = L1
    unfold awardPerfectWeekTokensSafe
    by_cases h0 : (detectPerfectWeeks tasks participants completions
        challengeId weekId).length = 0
    · simp [h0]
    · simp only [h0, if_false]
      rw [hfilter]
      simp [awardPerfectWeekTokens]

/-- Result shape of the recalculate-tokens route together with the ledger
it leaves behind. -/
structure RecalcResult where
  ledger : List LedgerEntry
  awarded : Nat
  revoked : Nat
  unchanged : Nat
deriving DecidableEq

/-- The where-clause of the recalculate route's existing-entries query: a
PERFECT_WEEK_EARNED row of this (challenge, week). -/
def isPerfectWeekRowFor (challengeId weekId : String) (e : LedgerEntry) : Bool :=
  e.challengeId = challengeId && e.weekId = some weekId &&
    e.reason = "PERFECT_WEEK_EARNED"

/-- POST admin/recalculate-tokens (src/unnamed/part_015): re-detect
qualifiers (a JS Set, modelled by dedup for iteration and by membership for
lookups), award a +1 row to each qualifier without an existing
PERFECT_WEEK_EARNED row for the week, and deleteMany the rows of users who
no longer qualify.  deleteMany by the collected row ids is modelled as
removing exactly the rows matching the collection's defining predicate,
since row ids are unique in the store. -/
def recalculateTokens (ledger : List LedgerEntry) (tasks : List TaskTemplate)
    (participants : List Participant) (completions : List Completion)
    (challengeId weekId : String) : RecalcResult :=
  let qualifying :=
    detectPerfectWeeks tasks participants completions challengeId weekId
  let existing := ledger.filter (isPerfectWeekRowFor challengeId weekId)
  let toAward := qualifying.dedup.filter
    (fun u => ! existing.any (fun e => e.userId = u))
  let toRevoke := existing.filter (fun e => ! qualifying.contains e.userId)
  { ledger := (ledger ++ awardPerfectWeekTokens challengeId weekId toAward).filter
      (fun e => ! (isPerfectWeekRowFor challengeId weekId e &&
        ! qualifying.contains e.userId)),
    awarded := toAward.length,
    revoked := toRevoke.length,
    unchanged := existing.length - toRevoke.length }

/-- Length of a list splits over a Bool predicate and its negation
(helper for C9's unchanged count). -/
theorem length_filter_add_length_filter_not {α : Type} (p : α → Bool)
    (l : List α) :
    (l.filter p).length + (l.filter (fun a => ! p a)).length = l.length := by
  induction l with
  | nil => simp
  | cons a t ih =>
    by_cases h : p a = true <;> simp [h, List.filter_cons] <;> omega

/-- C9: for a locked week, recalculate diffs current perfect-week
qualifiers against the existing PERFECT_WEEK_EARNED rows of that
(competition, week): each newly qualifying user gains one +1 row; rows of
users who no longer qualify are hard-deleted; every other entry — other
reasons, other weeks, other competitions, or users whose qualification did
not change — is untouched, and nothing else is inserted; the response
reports awarded, revoked and unchanged counts. -/
theorem recalculateTokens_frame (ledger : List LedgerEntry)
    (tasks : List TaskTemplate) (participants : List Participant)
    (completions : List Completion) (challengeId weekId : String) :
    (∀ e ∈ ledger,
      (¬ (e.challengeId = challengeId ∧ e.weekId = some weekId ∧
          e.reason = "PERFECT_WEEK_EARNED") ∨
        e.userId ∈ detectPerfectWeeks tasks participants completions
          challengeId weekId) →
      e ∈ (recalculateTokens ledger tasks participants completions
        challengeId weekId).ledger) ∧
    (∀ e ∈ ledger, e.challengeId = challengeId → e.weekId = some weekId →
      e.reason = "PERFECT_WEEK_EARNED" →
      e.userId ∉ detectPerfectWeeks tasks participants completions
        challengeId weekId →
      e ∉ (recalculateTokens ledger tasks participants completions
        challengeId weekId).ledger) ∧
    (∀ u ∈ detectPerfectWeeks tasks participants completions challengeId weekId,
      (∀ e ∈ ledger, e.challengeId = challengeId → e.weekId = some weekId →
        e.reason = "PERFECT_WEEK_EARNED" → e.userId ≠ u) →
      mkPerfectWeekEntry challengeId weekId u ∈
        (recalculateTokens ledger tasks participants completions
          challengeId weekId).ledger) ∧
    (∀ e ∈ (recalculateTokens ledger tasks participants completions
        challengeId weekId).ledger,
      e ∈ ledger ∨
        ∃ u ∈ detectPerfectWeeks tasks participants completions challengeId
          weekId, e = mkPerfectWeekEntry challengeId weekId u) ∧
    (recalculateTokens ledger tasks participants completions challengeId
      weekId).awarded =
      ((detectPerfectWeeks tasks participants completions challengeId
        weekId).dedup.filter
        (fun u => ! (ledger.filter (isPerfectWeekRowFor challengeId
          weekId)).any (fun e => e.userId = u))).length ∧
    (recalculateTokens ledger tasks participants completions challengeId
      weekId).revoked =
      ((ledger.filter (isPerfectWeekRowFor challengeId weekId)).filter
        (fun e => ! (detectPerfectWeeks tasks participants completions
          challengeId weekId).contains e.userId)).length ∧
    (recalculateTokens ledger tasks participants completions challengeId
      weekId).unchanged =
      ((ledger.filter (isPerfectWeekRowFor challengeId weekId)).filter
        (fun e => (detectPerfectWeeks tasks participants completions
          challengeId weekId).contains e.userId)).length := by
  refine ⟨?_, ?_, ?_, ?_, rfl, rfl, ?_⟩
  · intro e he hcond
    refine List.mem_filter.mpr ⟨List.mem_append_left _ he, ?_⟩
    rcases hcond with hnot | hqual
    · have : isPerfectWeekRowFor challengeId weekId e = false := by
        simp only [isPerfectWeekRowFor]
        simp only [Bool.and_eq_false_iff]
        by_cases h1 : e.challengeId = challengeId
        · by_cases h2 : e.weekId = some weekId
          · by_cases h3 : e.reason = "PERFECT_WEEK_EARNED"
            · exact absurd ⟨h1, h2, h3⟩ hnot
            · simp [h3]
          · simp [h2]
        · simp [h1]
      simp [this]
    · simp only [Bool.not_eq_true', Bool.and_eq_false_iff, Bool.not_eq_false]
      right
      simpa using hqual
  · intro e he h1 h2 h3 hnq hmem
    have hkeep := (List.mem_filter.mp hmem).2
    have hpwe : isPerfectWeekRowFor challengeId weekId e = true := by
      simp [isPerfectWeekRowFor, h1, h2, h3]
    have hcont : (detectPerfectWeeks tasks participants completions
        challengeId weekId).contains e.userId = false := by
      simpa using hnq
    rw [hpwe, hcont] at hkeep
    simp at hkeep
  · intro u hu hnone
    refine List.mem_filter.mpr ⟨List.mem_append_right _ ?_, ?_⟩
    · refine List.mem_map_of_mem _ ?_
      refine List.mem_filter.mpr ⟨List.mem_dedup.mpr hu, ?_⟩
      have : (ledger.filter (isPerfectWeekRowFor challengeId weekId)).any
          (fun e => e.userId = u) = false := by
        rw [List.any_eq_false]
        intro e he
        have hmem := List.mem_filter.mp he
        have hpwe := hmem.2
        simp only [isPerfectWeekRowFor, Bool.and_eq_true,
          decide_eq_true_eq] at hpwe
        simpa using hnone e hmem.1 hpwe.1.1 hpwe.1.2 hpwe.2
      simp [this]
    · simp only [Bool.not_eq_true', Bool.and_eq_false_iff, Bool.not_eq_false]
      right
      simpa using hu
  · intro e he
    have hmem := (List.mem_filter.mp he).1
    rcases List.mem_append.mp hmem with hl | hr
    · exact Or.inl hl
    · right
      obtain ⟨u, hu, rfl⟩ := List.mem_map.mp hr
      exact ⟨u, List.mem_dedup.mp (List.mem_filter.mp hu).1, rfl⟩
  · have h := length_filter_add_length_filter_not
      (fun e => (detectPerfectWeeks tasks participants completions
        challengeId weekId).contains e.userId)
      (ledger.filter (isPerfectWeekRowFor challengeId weekId))
    show (ledger.filter (isPerfectWeekRowFor challengeId weekId)).length -
      ((ledger.filter (isPerfectWeekRowFor challengeId weekId)).filter
        (fun e => ! (detectPerfectWeeks tasks participants completions
          challengeId weekId).contains e.userId)).length = _
    omega

/-- C9 witness data: one active task. -/
def rcTasks : List TaskTemplate :=
  [{ id := "tA", challengeId := "ch", active := true, points := 1 }]

/-- C9 witness data: two participants. -/
def rcParticipants : List Participant :=
  [{ userId := "u1", challengeId := "ch", displayName := "A" },
   { userId := "u2", challengeId := "ch", displayName := "B" }]

/-- C9 witness data: only u1 completed the task this week. -/
def rcCompletions : List Completion :=
  [{ userId := "u1", taskTemplateId := "tA", weekId := "wk",
     challengeId := "ch", displayName := "A", taskPoints := 1 }]

/-- C9 witness data: the ledger holds a perfect-week row for u2, who no
longer qualifies. -/
def rcLedger : List LedgerEntry := [mkPerfectWeekEntry "ch" "wk" "u2"]

/-- Witness for C9 at concrete inputs: u1 newly qualifies and gains a +1
perfect-week row after recalculation. -/
theorem recalculateTokens_frame_witness :
    "u1" ∈ detectPerfectWeeks rcTasks rcParticipants rcCompletions "ch" "wk" ∧
    (∀ e ∈ rcLedger, e.challengeId = "ch" → e.weekId = some "wk" →
      e.reason = "PERFECT_WEEK_EARNED" → e.userId ≠ "u1") ∧
    mkPerfectWeekEntry "ch" "wk" "u1" ∈
      (recalculateTokens rcLedger rcTasks rcParticipants rcCompletions
        "ch" "wk").ledger :=
  ⟨by decide, by decide,
    (recalculateTokens_frame rcLedger rcTasks rcParticipants rcCompletions
      "ch" "wk").2.2.1 "u1" (by decide) (by decide)⟩

/-- The was-accepted computation of the week-lock cleanup (part_001 line
505): the wager had reached ACCEPTED or the post-accept PENDING_REVIEW. -/
def cleanupWasAccepted (status : String) : Bool :=
  status = "ACCEPTED" || status = "PENDING_REVIEW"

/-- The was-accepted computation of the manual organizer void route
(part_013 lines 86 to 88). -/
def manualVoidWasAccepted (status : String) : Bool :=
  status = "ACCEPTED" || status = "PENDING_REVIEW"

/-- Per-challenge decision of cleanupSideChallengesOnWeekLock.  The resolve
path requires status PENDING_REVIEW with exactly two submissions and both
parties' submissions found; a thrown winner-computation error is caught per
challenge (the loop's try/catch), leaving the challenge untouched; every
other unfinished challenge is voided. -/
inductive CleanupAction where
  | resolveAct (r : WinnerCalculation)
  | voidAct (wasAccepted : Bool)
  | skip
deriving DecidableEq

/-- cleanupAction continued: the branch structure of the loop body. -/
def cleanupAction (c : SideChallenge) : CleanupAction :=
  if c.status = "PENDING_REVIEW" && c.submissions.length = 2 then
    match c.submissions.find? (fun s => s.userId = c.createdByUserId),
        c.submissions.find? (fun s => s.userId = c.opponentUserId) with
    | some creatorSubmission, some opponentSubmission =>
      match calculateWinner c.metricType c.targetValue
          creatorSubmission.valueNumber opponentSubmission.valueNumber
          c.createdByUserId c.opponentUserId with
      | .ok result => .resolveAct result
      | .error _ => .skip
    | _, _ => .skip
  else .voidAct (cleanupWasAccepted c.status)

/-- The per-challenge transaction of the cleanup loop: the updated
challenge row, the inserted ledger rows, and the resolved/voided tallies. -/
def applyCleanup (challengeId weekId : String) (c : SideChallenge) :
    SideChallenge × List LedgerEntry × Nat × Nat :=
  match cleanupAction c with
  | .resolveAct r =>
    ({ c with
        status := "RESOLVED"
        winnerUserId := r.winnerUserId
        resolutionNote := some ("Auto-resolved on week lock: " ++ r.reason) },
     resolveSideChallengeTokens challengeId weekId c.id r.winnerUserId
       c.createdByUserId c.opponentUserId c.stakeTokens, 1, 0)
  | .voidAct wasAccepted =>
    ({ c with
        status := "VOID"
        resolutionNote :=
          some "Voided due to week lock with incomplete submissions" },
     voidSideChallengeTokens challengeId weekId c.id c.createdByUserId
       c.opponentUserId c.stakeTokens wasAccepted, 0, 1)
  | .skip => (c, [], 0, 0)

/-- The where-clause of the cleanup query: unfinished side challenges of
this (challenge, week). -/
def inCleanupScope (challengeId weekId : String) (c : SideChallenge) : Bool :=
  c.challengeId = challengeId && c.weekId = weekId &&
    isOpenSideChallengeStatus c.status

/-- Resulting store state of the cleanup sweep. -/
structure CleanupState where
  challenges : List SideChallenge
  entries : List LedgerEntry
  resolvedCount : Nat
  voidedCount : Nat
deriving DecidableEq

/-- cleanupSideChallengesOnWeekLock (part_001): select the unfinished side
challenges of the week and process each with applyCleanup, collecting the
ledger rows and the resolved/voided counts; challenges outside the query
stay untouched.  The imperative loop is rendered as map/flatMap over the
selected rows, preserving order. -/
def cleanupSideChallengesOnWeekLock (sideChallenges : List SideChallenge)
    (challengeId weekId : String) : CleanupState :=
  { challenges := sideChallenges.map (fun c =>
      if inCleanupScope challengeId weekId c then
        (applyCleanup challengeId weekId c).1
      else c),
    entries := (sideChallenges.filter (inCleanupScope challengeId weekId)).flatMap
      (fun c => (applyCleanup challengeId weekId c).2.1),
    resolvedCount :=
      ((sideChallenges.filter (inCleanupScope challengeId weekId)).map
        (fun c => (applyCleanup challengeId weekId c).2.2.1)).sum,
    voidedCount :=
      ((sideChallenges.filter (inCleanupScope challengeId weekId)).map
        (fun c => (applyCleanup challengeId weekId c).2.2.2)).sum }

/-- C2 counterexample data: an ACCEPTED wager with both parties'
submissions present at week lock. -/
def cxAcceptedBoth : SideChallenge :=
  { id := "sc1", challengeId := "ch", weekId := "wk",
    createdByUserId := "u1", opponentUserId := "u2", status := "ACCEPTED",
    metricType := "HIGHER_WINS", targetValue := none, stakeTokens := 3,
    winnerUserId := none, resolutionNote := none,
    submissions := [{ userId := "u1", valueNumber := 1000 },
                    { userId := "u2", valueNumber := 1500 }] }

/-- Counterexample for C2 as frozen: the week-lock cleanup VOIDS an
ACCEPTED wager even when both parties' submissions are present — only
PENDING_REVIEW wagers take the resolve path — so no challenge in the run
ends RESOLVED. -/
theorem cleanup_accepted_both_counterexample :
    (∃ c, (cleanupSideChallengesOnWeekLock [cxAcceptedBoth] "ch" "wk").challenges =
      [c] ∧ c.id = "sc1" ∧ c.status = "VOID") ∧
    (∀ c ∈ (cleanupSideChallengesOnWeekLock [cxAcceptedBoth] "ch" "wk").challenges,
      c.status ≠ "RESOLVED") ∧
    (cleanupSideChallengesOnWeekLock [cxAcceptedBoth] "ch" "wk").resolvedCount = 0 ∧
    (cleanupSideChallengesOnWeekLock [cxAcceptedBoth] "ch" "wk").voidedCount = 1 := by
  refine ⟨⟨{ cxAcceptedBoth with
      status := "VOID"
      resolutionNote :=
        some "Voided due to week lock with incomplete submissions" },
    ?_, ?_, ?_⟩, ?_, ?_, ?_⟩ <;> decide

/-- Every ledger row a cleanup step inserts is tagged with the challenge's
own id (helper for C2). -/
theorem cleanup_entry_tag (challengeId weekId : String) (d : SideChallenge) :
    ∀ e ∈ (applyCleanup challengeId weekId d).2.1,
      e.relatedEntityId = some d.id := by
  intro e he
  unfold applyCleanup at he
  rcases hact : cleanupAction d with r | wa | _ <;> rw [hact] at he
  · rcases hw : r.winnerUserId with _ | w <;>
      simp only [resolveSideChallengeTokens, hw, List.mem_cons,
        List.not_mem_nil, or_false] at he
    · rcases he with rfl | rfl <;> rfl
    · subst he
      rfl
  · rcases wa <;> simp [voidSideChallengeTokens] at he
    · subst he
      rfl
    · rcases he with rfl | rfl <;> rfl
  · cases he

/-- Filtering the cleanup's inserted rows by one selected challenge's id
returns exactly that challenge's own block (helper for C2). -/
theorem cleanup_entries_block (challengeId weekId : String)
    (l : List SideChallenge) (hnd : (l.map (fun c => c.id)).Nodup)
    (c : SideChallenge) (hc : c ∈ l) :
    (l.flatMap (fun d => (applyCleanup challengeId weekId d).2.1)).filter
      (fun e => e.relatedEntityId = some c.id) =
      (applyCleanup challengeId weekId c).2.1 := by
  induction l with
  | nil => cases hc
  | cons d t ih =>
    rw [List.flatMap_cons, List.filter_append]
    simp only [List.map_cons, List.nodup_cons] at hnd
    rcases List.mem_cons.mp hc with rfl | hct
    · have h1 : (applyCleanup challengeId weekId c).2.1.filter
          (fun e => e.relatedEntityId = some c.id) =
          (applyCleanup challengeId weekId c).2.1 := by
        refine List.filter_eq_self.mpr ?_
        intro e he
        simp [cleanup_entry_tag challengeId weekId c e he]
      have h2 : (t.flatMap (fun d => (applyCleanup challengeId weekId d).2.1)).filter
          (fun e => e.relatedEntityId = some c.id) = [] := by
        refine List.filter_eq_nil_iff.mpr ?_
        intro e he
        obtain ⟨d', hd', hed'⟩ := List.mem_flatMap.mp he
        have := cleanup_entry_tag challengeId weekId d' e hed'
        rw [this]
        have : d'.id ≠ c.id := by
          intro h
          exact hnd.1 (h ▸ List.mem_map_of_mem (fun c => c.id) hd')
        simp [this]
      rw [h1, h2, List.append_nil]
    · have h1 : (applyCleanup challengeId weekId d).2.1.filter
          (fun e => e.relatedEntityId = some c.id) = [] := by
        refine List.filter_eq_nil_iff.mpr ?_
        intro e he
        rw [cleanup_entry_tag challengeId weekId d e he]
        have : d.id ≠ c.id := by
          intro h
          exact hnd.1 (h ▸ List.mem_map_of_mem (fun c => c.id) hct)
        simp [this]
      rw [h1, ih hnd.2 hct, List.nil_append]

/-- C2 (amended): when week-lock cleanup runs for a (competition, week),
a non-terminal side challenge takes the resolve path only when its status
is PENDING_REVIEW with both parties' submissions present and the winner
computation succeeds, ending RESOLVED with an auto-resolved-on-week-lock
note and the resolution ledger rows; every other non-terminal side
challenge in that week — including one in status ACCEPTED with both
submissions present — is forced to VOID with refunds, where was-accepted
is computed exactly as in the manual organizer void route; challenges
outside the (competition, week) or already terminal are untouched. -/
theorem cleanup_spec (cs : List SideChallenge) (ch wk : String)
    (hids : (cs.map (fun c => c.id)).Nodup) :
    (∀ s, cleanupWasAccepted s = manualVoidWasAccepted s) ∧
    (∀ c ∈ cs,
      ¬ (c.challengeId = ch ∧ c.weekId = wk ∧
        isOpenSideChallengeStatus c.status = true) →
      c ∈ (cleanupSideChallengesOnWeekLock cs ch wk).challenges) ∧
    (∀ c ∈ cs, c.challengeId = ch → c.weekId = wk →
      isOpenSideChallengeStatus c.status = true →
      (∀ csub osub r, c.status = "PENDING_REVIEW" →
        c.submissions.length = 2 →
        c.submissions.find? (fun s => s.userId = c.createdByUserId) =
          some csub →
        c.submissions.find? (fun s => s.userId = c.opponentUserId) =
          some osub →
        calculateWinner c.metricType c.targetValue csub.valueNumber
          osub.valueNumber c.createdByUserId c.opponentUserId =
          Except.ok r →
        ({ c with
            status := "RESOLVED"
            winnerUserId := r.winnerUserId
            resolutionNote :=
              some ("Auto-resolved on week lock: " ++ r.reason) } ∈
          (cleanupSideChallengesOnWeekLock cs ch wk).challenges ∧
        (cleanupSideChallengesOnWeekLock cs ch wk).entries.filter
          (fun e => e.relatedEntityId = some c.id) =
          resolveSideChallengeTokens ch wk c.id r.winnerUserId
            c.createdByUserId c.opponentUserId c.stakeTokens)) ∧
      (¬ (c.status = "PENDING_REVIEW" ∧ c.submissions.length = 2) →
        ({ c with
            status := "VOID"
            resolutionNote :=
              some "Voided due to week lock with incomplete submissions" } ∈
          (cleanupSideChallengesOnWeekLock cs ch wk).challenges ∧
        (cleanupSideChallengesOnWeekLock cs ch wk).entries.filter
          (fun e => e.relatedEntityId = some c.id) =
          voidSideChallengeTokens ch wk c.id c.createdByUserId
            c.opponentUserId c.stakeTokens
            (manualVoidWasAccepted c.status)))) := by
  have hblock : ∀ c ∈ cs, inCleanupScope ch wk c = true →
      (cleanupSideChallengesOnWeekLock cs ch wk).entries.filter
        (fun e => e.relatedEntityId = some c.id) =
        (applyCleanup ch wk c).2.1 := by
    intro c hc hscope
    refine cleanup_entries_block ch wk _ ?_ c (List.mem_filter.mpr ⟨hc, hscope⟩)
    exact List.Nodup.sublist ((List.filter_sublist cs).map _) hids
  refine ⟨fun s => rfl, ?_, ?_⟩
  · intro c hc hnot
    have hscope : inCleanupScope ch wk c = false := by
      by_cases h1 : c.challengeId = ch
      · by_cases h2 : c.weekId = wk
        · by_cases h3 : isOpenSideChallengeStatus c.status = true
          · exact absurd ⟨h1, h2, h3⟩ hnot
          · simp [inCleanupScope, h3, Bool.eq_false_iff.mpr h3]
        · simp [inCleanupScope, h2]
      · simp [inCleanupScope, h1]
    refine List.mem_map.mpr ⟨c, hc, ?_⟩
    simp [hscope]
  · intro c hc h1 h2 h3
    have hscope : inCleanupScope ch wk c = true := by
      simp [inCleanupScope, h1, h2, h3]
    constructor
    · intro csub osub r hpr hlen hfc hfo hcw
      have hact : cleanupAction c = .resolveAct r := by
        unfold cleanupAction
        rw [if_pos (by simp [hpr, hlen]), hfc, hfo]
        dsimp only
        rw [hcw]
      constructor
      · refine List.mem_map.mpr ⟨c, hc, ?_⟩
        rw [if_pos hscope]
        unfold applyCleanup
        rw [hact]
      · rw [hblock c hc hscope]
        unfold applyCleanup
        rw [hact]
    · intro hnot2
      have hcond : (c.status = "PENDING_REVIEW" &&
          c.submissions.length = 2) = false := by
        by_cases hp : c.status = "PENDING_REVIEW"
        · by_cases hl : c.submissions.length = 2
          · exact absurd ⟨hp, hl⟩ hnot2
          · simp [hl]
        · simp [hp]
      have hact : cleanupAction c =
          .voidAct (cleanupWasAccepted c.status) := by
        unfold cleanupAction
        rw [if_neg (by simp [hcond])]
      constructor
      · refine List.mem_map.mpr ⟨c, hc, ?_⟩
        rw [if_pos hscope]
        unfold applyCleanup
        rw [hact]
      · rw [hblock c hc hscope]
        unfold applyCleanup
        rw [hact]
        rfl

/-- C2 witness data: a PENDING_REVIEW wager with both submissions present
at week lock. -/
def wPending : SideChallenge :=
  { id := "w1", challengeId := "ch", weekId := "wk",
    createdByUserId := "u1", opponentUserId := "u2",
    status := "PENDING_REVIEW", metricType := "HIGHER_WINS",
    targetValue := none, stakeTokens := 3, winnerUserId := none,
    resolutionNote := none,
    submissions := [{ userId := "u1", valueNumber := 1000 },
                    { userId := "u2", valueNumber := 1500 }] }

/-- Witness for C2 at concrete inputs: the PENDING_REVIEW wager with both
submissions auto-resolves on week lock with the opponent as winner. -/
theorem cleanup_spec_witness :
    (([wPending].map (fun c => c.id)).Nodup) ∧
    { wPending with
        status := "RESOLVED"
        winnerUserId := some "u2"
        resolutionNote :=
          some "Auto-resolved on week lock: Higher value wins: 1500 > 1000" } ∈
      (cleanupSideChallengesOnWeekLock [wPending] "ch" "wk").challenges := by
  refine ⟨by decide, ?_⟩
  have h := ((cleanup_spec [wPending] "ch" "wk" (by decide)).2.2 wPending
    (by decide) rfl rfl rfl).1
    { userId := "u1", valueNumber := 1000 }
    { userId := "u2", valueNumber := 1500 }
    { winnerId := "opponent", reason := "Higher value wins: 1500 > 1000",
      winnerUserId := some "u2" }
    rfl rfl (by decide) (by decide) (by decide)
  exact h.1

/-- A JSON value as the submit route's request body may carry it. -/
inductive JsonVal where
  | num (q : ℚ)
  | str (s : String)
  | jbool (b : Bool)
  | jnull
deriving DecidableEq

/-- The submit route's input validation (submit/route.ts lines 39 to 51):
a missing (undefined or JSON null) value is rejected first, then any
non-number, then any negative number. -/
def validateSubmitValue : Option JsonVal → Except String ℚ
  | none => .error "Value is required"
  | some .jnull => .error "Value is required"
  | some (.num q) =>
    if q < 0 then .error "Value must be a non-negative number" else .ok q
  | some _ => .error "Value must be a non-negative number"

/-- Resulting store state of a successful submit: the challenge row with
its submissions, the inserted ledger rows, and the route's resolved flag. -/
structure SubmitOutcome where
  challenge : SideChallenge
  newEntries : List LedgerEntry
  resolved : Bool
deriving DecidableEq

/-- POST submit (submit/route.ts): validate the value, check the caller is
a party, the status is ACCEPTED and no duplicate submission exists, then
insert the submission; when it is the second one, compute the winner and
resolve with settlement in the same transaction.  A winner-computation
throw aborts the transaction (modelled as the error result). -/
def processSubmitResult (challengeId weekId : String) (c : SideChallenge)
    (userId : String) (valueNumber : Option JsonVal) :
    Except String SubmitOutcome :=
  match validateSubmitValue valueNumber with
  | .error m => .error m
  | .ok q =>
    if c.createdByUserId = userId || c.opponentUserId = userId then
      if c.status = "ACCEPTED" then
        if c.submissions.any (fun s => s.userId = userId) then
          .error "You have already submitted your result"
        else
          let allSubmissions :=
            c.submissions ++ [{ userId := userId, valueNumber := q }]
          if allSubmissions.length = 2 then
            match allSubmissions.find?
                (fun s => s.userId = c.createdByUserId),
              allSubmissions.find? (fun s => s.userId = c.opponentUserId) with
            | some creatorSubmission, some opponentSubmission =>
              match calculateWinner c.metricType c.targetValue
                  creatorSubmission.valueNumber
                  opponentSubmission.valueNumber c.createdByUserId
                  c.opponentUserId with
              | .ok resolution =>
                .ok { challenge := { c with
                        status := "RESOLVED"
                        winnerUserId := resolution.winnerUserId
                        resolutionNote :=
                          some ("Auto-resolved: " ++ resolution.reason)
                        submissions := allSubmissions },
                      newEntries := resolveSideChallengeTokens challengeId
                        weekId c.id resolution.winnerUserId
                        c.createdByUserId c.opponentUserId c.stakeTokens,
                      resolved := true }
              | .error m => .error m
            | _, _ =>
              .ok { challenge := { c with submissions := allSubmissions },
                    newEntries := [], resolved := true }
          else
            .ok { challenge := { c with submissions := allSubmissions },
                  newEntries := [], resolved := false }
      else .error "Challenge must be accepted before submitting results"
    else .error "You are not a participant in this challenge"

/-- A value accepted by the submit validation is non-negative (helper for
C10). -/
theorem validateSubmitValue_nonneg (v : Option JsonVal) (q : ℚ)
    (h : validateSubmitValue v = .ok q) : 0 ≤ q := by
  rcases v with _ | val
  · cases h
  · rcases val with q' | s | b | _
    · simp only [validateSubmitValue] at h
      by_cases hq : q' < 0

      · rw [if_pos hq] at h
        cases h
      · rw [if_neg hq] at h
        cases h
        exact le_of_not_lt hq
    · cases h
    · cases h
    · cases h

/-- Characterization of a successful submit (helper for C10): the value
passed validation, exactly the caller's new submission was appended, the
wager was ACCEPTED, and the status either stayed put or moved to RESOLVED
through the winner computation over the stored submissions. -/
theorem processSubmitResult_ok (challengeId weekId : String)
    (c : SideChallenge) (userId : String) (v : Option JsonVal)
    (out : SubmitOutcome)
    (hout : processSubmitResult challengeId weekId c userId v = .ok out) :
    ∃ q, validateSubmitValue v = .ok q ∧
      out.challenge.submissions =
        c.submissions ++ [{ userId := userId, valueNumber := q }] ∧
      c.status = "ACCEPTED" ∧
      (out.challenge.status = c.status ∨
        (out.challenge.status = "RESOLVED" ∧
          ∃ csub osub r,
            out.challenge.submissions.find?
              (fun s => s.userId = c.createdByUserId) = some csub ∧
            out.challenge.submissions.find?
              (fun s => s.userId = c.opponentUserId) = some osub ∧
            calculateWinner c.metricType c.targetValue csub.valueNumber
              osub.valueNumber c.createdByUserId c.opponentUserId =
              Except.ok r ∧
            out.challenge.winnerUserId = r.winnerUserId)) := by
  rcases hv : validateSubmitValue v with m | q
  · simp only [processSubmitResult, hv] at hout
    exact Except.noConfusion hout
  · simp only [processSubmitResult, hv] at hout
    split_ifs at hout with hpart hstat hdup hlen
    · set allSubs : List Submission :=
        c.submissions ++ [{ userId := userId, valueNumber := q }] with hAll
      rcases hfc : allSubs.find? (fun s => s.userId = c.createdByUserId)
          with _ | csub <;>
        rcases hfo : allSubs.find? (fun s => s.userId = c.opponentUserId)
          with _ | osub <;>
        rw [hfc, hfo] at hout
      · cases hout
        exact ⟨q, rfl, rfl, hstat, Or.inl rfl⟩
      · cases hout
        exact ⟨q, rfl, rfl, hstat, Or.inl rfl⟩
      · cases hout
        exact ⟨q, rfl, rfl, hstat, Or.inl rfl⟩
      · dsimp only at hout
        rcases hcw : calculateWinner c.metricType c.targetValue
            csub.valueNumber osub.valueNumber c.createdByUserId
            c.opponentUserId with m' | r
        · rw [hcw] at hout
          exact Except.noConfusion hout
        · rw [hcw] at hout
          cases hout
          exact ⟨q, rfl, rfl, hstat,
            Or.inr ⟨rfl, csub, osub, r, hfc, hfo, hcw, rfl⟩⟩
    · cases hout
      exact ⟨q, rfl, rfl, hstat, Or.inl rfl⟩

/-- C10: the submit-result operation rejects a missing, non-numeric or
negative value with the validation error before any write; every stored
submission therefore has a non-negative numeric value, and the winner
computation, when it runs, receives only non-negative stored values. -/
theorem submitRoute_validation (challengeId weekId : String)
    (c : SideChallenge) (userId : String) (v : Option JsonVal) :
    (∀ m, validateSubmitValue v = .error m →
      processSubmitResult challengeId weekId c userId v = .error m) ∧
    (∀ out, processSubmitResult challengeId weekId c userId v = .ok out →
      ∃ q, validateSubmitValue v = .ok q ∧ 0 ≤ q ∧
        out.challenge.submissions =
          c.submissions ++ [{ userId := userId, valueNumber := q }]) ∧
    ((∀ s ∈ c.submissions, 0 ≤ s.valueNumber) →
      ∀ out, processSubmitResult challengeId weekId c userId v = .ok out →
        (∀ s ∈ out.challenge.submissions, 0 ≤ s.valueNumber) ∧
        (out.challenge.status = "RESOLVED" →
          ∃ csub osub,
            csub ∈ out.challenge.submissions ∧
            osub ∈ out.challenge.submissions ∧
            csub.userId = c.createdByUserId ∧
            osub.userId = c.opponentUserId ∧
            0 ≤ csub.valueNumber ∧ 0 ≤ osub.valueNumber ∧
            ∃ r, calculateWinner c.metricType c.targetValue
                csub.valueNumber osub.valueNumber c.createdByUserId
                c.opponentUserId = Except.ok r ∧
              out.challenge.winnerUserId = r.winnerUserId)) := by
  refine ⟨?_, ?_, ?_⟩
  · intro m hm
    unfold processSubmitResult
    rw [hm]
  · intro out hout
    obtain ⟨q, hq, hsubs, -, -⟩ :=
      processSubmitResult_ok challengeId weekId c userId v out hout
    exact ⟨q, hq, validateSubmitValue_nonneg v q hq, hsubs⟩
  · intro hnn out hout
    obtain ⟨q, hq, hsubs, hstat, hres⟩ :=
      processSubmitResult_ok challengeId weekId c userId v out hout
    have hqnn := validateSubmitValue_nonneg v q hq
    have hall : ∀ s ∈ out.challenge.submissions, 0 ≤ s.valueNumber := by
      intro s hs
      rw [hsubs] at hs
      rcases List.mem_append.mp hs with h | h
      · exact hnn s h
      · rw [List.mem_singleton.mp h]
        exact hqnn
    refine ⟨hall, ?_⟩
    intro hr
    rcases hres with hsame | ⟨-, csub, osub, r, hfc, hfo, hcw, hw⟩
    · rw [hstat] at hsame
      rw [hr] at hsame
      exact absurd hsame (by decide)
    · have hmc := List.mem_of_find?_eq_some hfc
      have hmo := List.mem_of_find?_eq_some hfo
      refine ⟨csub, osub, hmc, hmo, ?_, ?_, hall _ hmc, hall _ hmo,
        r, hcw, hw⟩
      · have h1 := List.find?_some hfc
        simpa using h1
      · have h2 := List.find?_some hfo
        simpa using h2

/-- C10 witness data: an ACCEPTED wager awaiting the opponent's
submission. -/
def submitWitnessChallenge : SideChallenge :=
  { id := "s1", challengeId := "ch", weekId := "wk",
    createdByUserId := "u1", opponentUserId := "u2", status := "ACCEPTED",
    metricType := "HIGHER_WINS", targetValue := none, stakeTokens := 2,
    winnerUserId := none, resolutionNote := none,
    submissions := [{ userId := "u1", valueNumber := 500 }] }

/-- Witness for C10 at concrete inputs: a negative submitted value is
rejected with the validation error and no state change. -/
theorem submitRoute_validation_witness :
    validateSubmitValue (some (JsonVal.num (-5))) =
      Except.error "Value must be a non-negative number" ∧
    processSubmitResult "ch" "wk" submitWitnessChallenge "u2"
      (some (JsonVal.num (-5))) =
      Except.error "Value must be a non-negative number" :=
  ⟨by decide,
    (submitRoute_validation "ch" "wk" submitWitnessChallenge "u2"
      (some (JsonVal.num (-5)))).1 _ (by decide)⟩

/-- One leaderboard row, as getWeeklyLeaderboard returns it. -/
structure ParticipantScore where
  userId : String
  displayName : String
  points : Int
  rank : Nat
  tied : Bool
deriving DecidableEq

/-- Lookup in the insertion-ordered map backing userPoints (a JS Map keyed
by userId, holding displayName and points). -/
def mapLookup (m : List (String × String × Int)) (k : String) :
    Option (String × Int) :=
  match m.find? (fun kv => kv.1 = k) with
  | some kv => some kv.2
  | none => none

/-- JS Map.set semantics: update in place when the key exists (keeping its
position), append otherwise. -/
def mapSet (m : List (String × String × Int)) (k : String)
    (v : String × Int) : List (String × String × Int) :=
  if m.any (fun kv => kv.1 = k) then
    m.map (fun kv => if kv.1 = k then (k, v) else kv)
  else m ++ [(k, v)]

/-- The completions forEach of getWeeklyLeaderboard: accumulate each
completion's current task points onto its user, keeping the first-seen
displayName. -/
def accumulatePoints (completions : List Completion) :
    List (String × String × Int) :=
  completions.foldl (fun m c =>
    let current := (mapLookup m c.userId).getD (c.displayName, 0)
    mapSet m c.userId (current.1, current.2 + c.taskPoints)) []

/-- The participants forEach of getWeeklyLeaderboard: add a zero-points row
for every participant not already present. -/
def addParticipants (m : List (String × String × Int))
    (participants : List Participant) : List (String × String × Int) :=
  participants.foldl (fun m p =>
    if (mapLookup m p.userId).isSome then m
    else mapSet m p.userId (p.displayName, 0)) m

/-- The ranking loop of getWeeklyLeaderboard: index i, running
currentRank, and the previous entry's points; tied compares with both
neighbours; currentRank jumps to i + 2 when the next points differ. -/
def rankGo (i currentRank : Nat) (prev : Option Int) :
    List (String × String × Int) → List ParticipantScore
  | [] => []
  | u :: rest =>
    let tiedPrev := match prev with
      | some p => decide (u.2.2 = p)
      | none => false
    let tiedNext := match rest with
      | v :: _ => decide (u.2.2 = v.2.2)
      | [] => false
    let nextRank := match rest with
      | v :: _ => if u.2.2 ≠ v.2.2 then i + 2 else currentRank
      | [] => currentRank
    { userId := u.1, displayName := u.2.1, points := u.2.2,
      rank := currentRank, tied := tiedPrev || tiedNext } ::
      rankGo (i + 1) nextRank (some u.2.2) rest

/-- getWeeklyLeaderboard (src/lib/leaderboard.ts): sum completion points
per user (current task point values), add every participant of the
competition with zero points, sort descending by points (JS
Array.prototype.sort is a stable sort; modelled by the stable insertion
sort), and run the ranking loop. -/
def getWeeklyLeaderboard (completions : List Completion)
    (participants : List Participant) (challengeId weekId : String) :
    List ParticipantScore :=
  let comps := completions.filter (fun c =>
    c.challengeId = challengeId && c.weekId = weekId)
  let m1 := accumulatePoints comps
  let m2 := addParticipants m1
    (participants.filter (fun p => p.challengeId = challengeId))
  rankGo 0 1 none (List.insertionSort (fun a b => b.2.2 ≤ a.2.2) m2)

/-- Unfolding equation of the ranking loop on a cons (helper for C5). -/
theorem rankGo_cons (i r : Nat) (prev : Option Int)
    (a : String × String × Int) (t : List (String × String × Int)) :
    rankGo i r prev (a :: t) =
      { userId := a.1, displayName := a.2.1, points := a.2.2, rank := r,
        tied := (match prev with
          | some p => decide (a.2.2 = p)
          | none => false) ||
          (match t with
          | v :: _ => decide (a.2.2 = v.2.2)
          | [] => false) } ::
      rankGo (i + 1)
        (match t with
        | v :: _ => if a.2.2 ≠ v.2.2 then i + 2 else r
        | [] => r) (some a.2.2) t := rfl

/-- Every input row appears in the ranking output with its points (helper
for C5). -/
theorem rankGo_mem (l : List (String × String × Int)) :
    ∀ (i r : Nat) (prev : Option Int) (u : String × String × Int),
      u ∈ l → ∃ row ∈ rankGo i r prev l,
        row.userId = u.1 ∧ row.points = u.2.2 := by
  induction l with
  | nil => intro i r prev u hu; cases hu
  | cons a t ih =>
    intro i r prev u hu
    rcases List.mem_cons.mp hu with rfl | hut
    · rw [rankGo_cons]
      exact ⟨_, List.mem_cons_self _ _, rfl, rfl⟩
    · obtain ⟨row, hrow, hprops⟩ := ih (i + 1) _ (some a.2.2) u hut
      rw [rankGo_cons]
      exact ⟨row, List.mem_cons_of_mem _ hrow, hprops⟩

/-- The ranking output's points list is the input's points list (helper for
C5). -/
theorem rankGo_points (l : List (String × String × Int)) :
    ∀ (i r : Nat) (prev : Option Int),
      (rankGo i r prev l).map (fun s => s.points) =
        l.map (fun u => u.2.2) := by
  induction l with
  | nil => intro i r prev; rfl
  | cons a t ih =>
    intro i r prev
    rw [rankGo_cons, List.map_cons, List.map_cons, ih]

/-- The first ranked row carries the incoming currentRank (helper for
C5). -/
theorem rankGo_rank_zero (l : List (String × String × Int))
    (i r : Nat) (prev : Option Int) (u : ParticipantScore)
    (hu : (rankGo i r prev l).get? 0 = some u) : u.rank = r := by
  cases l with
  | nil => cases hu
  | cons a t =>
    rw [rankGo_cons, List.get?_cons_zero] at hu
    cases hu
    rfl

/-- Rank recurrence of the ranking loop (helper for C5): a row with the
same points as its predecessor shares the rank; a row with different
points at output position j+1 gets rank i + j + 2, i being the loop's
starting index. -/
theorem rankGo_rank_step (l : List (String × String × Int)) :
    ∀ (i r : Nat) (prev : Option Int) (j : Nat) (u v : ParticipantScore),
      (rankGo i r prev l).get? j = some u →
      (rankGo i r prev l).get? (j + 1) = some v →
      (v.points = u.points → v.rank = u.rank) ∧
      (v.points ≠ u.points → v.rank = i + j + 2) := by
  induction l with
  | nil => intro i r prev j u v hu hv; cases hu
  | cons a t ih =>
    intro i r prev j u v hu hv
    rw [rankGo_cons] at hu hv
    cases j with
    | zero =>
      rw [List.get?_cons_zero] at hu
      cases hu
      rw [List.get?_cons_succ] at hv
      cases t with
      | nil => cases hv
      | cons b t' =>
        rw [rankGo_cons, List.get?_cons_zero] at hv
        cases hv
        constructor
        · intro heq
          show (if a.2.2 ≠ b.2.2 then i + 2 else r) = r
          rw [if_neg (fun hne => hne heq.symm)]
        · intro hne
          show (if a.2.2 ≠ b.2.2 then i + 2 else r) = i + 0 + 2
          rw [if_pos (fun heq => hne (by simp [heq]))]
    | succ j' =>
      rw [List.get?_cons_succ] at hu hv
      have h := ih (i + 1) _ (some a.2.2) j' u v hu hv
      refine ⟨h.1, fun hne => ?_⟩
      rw [h.2 hne]
      omega

/-- Tie flags of the ranking loop (helper for C5): a row is flagged tied
exactly when its points equal the accumulator's previous points (for the
first row) or the neighbouring rows' points. -/
theorem rankGo_tied_get (l : List (String × String × Int)) :
    ∀ (i r : Nat) (prev : Option Int) (j : Nat) (u : ParticipantScore),
      (rankGo i r prev l).get? j = some u →
      u.tied = ((match (if j = 0 then prev
            else ((rankGo i r prev l).get? (j - 1)).map
              (fun w => w.points)) with
          | some p => decide (u.points = p)
          | none => false) ||
        (match (rankGo i r prev l).get? (j + 1) with
          | some w => decide (u.points = w.points)
          | none => false)) := by
  induction l with
  | nil => intro i r prev j u hu; cases hu
  | cons a t ih =>
    intro i r prev j u hu
    rw [rankGo_cons] at hu ⊢
    cases j with
    | zero =>
      rw [List.get?_cons_zero] at hu
      cases hu
      rw [if_pos rfl, List.get?_cons_succ]
      cases t with
      | nil => rfl
      | cons b t' =>
        rw [rankGo_cons, List.get?_cons_zero]
    | succ j' =>
      rw [List.get?_cons_succ] at hu
      have h := ih (i + 1) _ (some a.2.2) j' u hu
      rw [h]
      rw [if_neg (Nat.succ_ne_zero j')]
      have hstep : j' + 1 - 1 = j' := rfl
      rw [hstep, List.get?_cons_succ]
      cases j' with
      | zero =>
        rw [if_pos rfl, List.get?_cons_zero]
        rfl
      | succ j'' =>
        rw [if_neg (Nat.succ_ne_zero j''), List.get?_cons_succ]
        have hstep2 : j'' + 1 - 1 = j'' := rfl
        rw [hstep2]

/-- A key is present in the userPoints map iff some row carries it (helper
for C5). -/
theorem mapLookup_isSome_iff (m : List (String × String × Int)) (k : String) :
    (mapLookup m k).isSome ↔ ∃ kv ∈ m, kv.1 = k := by
  have hiff : (mapLookup m k).isSome =
      (m.find? (fun kv => kv.1 = k)).isSome := by
    unfold mapLookup
    rcases hf : m.find? (fun kv => kv.1 = k) with _ | kv <;> rw [hf] <;> rfl
  rw [hiff, List.find?_isSome]
  constructor
  · rintro ⟨x, hx, hp⟩
    exact ⟨x, hx, by simpa using hp⟩
  · rintro ⟨x, hx, hp⟩
    exact ⟨x, hx, by simpa using hp⟩

/-- Map.set keeps every present key present (helper for C5). -/
theorem mapSet_isSome_preserve (m : List (String × String × Int))
    (k k' : String) (v : String × Int)
    (h : (mapLookup m k').isSome) :
    (mapLookup (mapSet m k v) k').isSome := by
  obtain ⟨kv, hkv, hk⟩ := (mapLookup_isSome_iff m k').mp h
  refine (mapLookup_isSome_iff _ k').mpr ?_
  unfold mapSet
  by_cases hhas : (m.any (fun kv => kv.1 = k)) = true
  · rw [if_pos hhas]
    by_cases heq : kv.1 = k
    · refine ⟨(k, v), ?_, ?_⟩
      · refine List.mem_map.mpr ⟨kv, hkv, ?_⟩
        rw [if_pos heq]
      · show k = k'
        rw [← heq]
        exact hk
    · refine ⟨kv, ?_, hk⟩
      refine List.mem_map.mpr ⟨kv, hkv, ?_⟩
      rw [if_neg heq]
  · rw [if_neg hhas]
    exact ⟨kv, List.mem_append_left _ hkv, hk⟩

/-- Map.set makes its own key present (helper for C5). -/
theorem mapSet_isSome_self (m : List (String × String × Int)) (k : String)
    (v : String × Int) : (mapLookup (mapSet m k v) k).isSome := by
  refine (mapLookup_isSome_iff _ k).mpr ?_
  unfold mapSet
  by_cases hhas : (m.any (fun kv => kv.1 = k)) = true
  · rw [if_pos hhas]
    obtain ⟨kv, hkv, hp⟩ := List.any_eq_true.mp hhas
    refine ⟨(k, v), ?_, rfl⟩
    refine List.mem_map.mpr ⟨kv, hkv, ?_⟩
    rw [if_pos (by simpa using hp)]
  · rw [if_neg hhas]
    exact ⟨(k, v), List.mem_append_right _ (List.mem_singleton.mpr rfl), rfl⟩

/-- The participants pass keeps every present key present (helper for
C5). -/
theorem addParticipants_isSome_preserve (ps : List Participant) :
    ∀ (m : List (String × String × Int)) (k : String),
      (mapLookup m k).isSome → (mapLookup (addParticipants m ps) k).isSome := by
  induction ps with
  | nil => intro m k h; exact h
  | cons p t ih =>
    intro m k h
    unfold addParticipants
    rw [List.foldl_cons]
    by_cases hp : (mapLookup m p.userId).isSome
    · rw [if_pos hp]
      exact ih m k h
    · rw [if_neg hp]
      exact ih _ k (mapSet_isSome_preserve m p.userId k _ h)

/-- After the participants pass, every listed participant's key is present
(helper for C5). -/
theorem addParticipants_isSome_mem (ps : List Participant) :
    ∀ (m : List (String × String × Int)) (p : Participant), p ∈ ps →
      (mapLookup (addParticipants m ps) p.userId).isSome := by
  induction ps with
  | nil => intro m p hp; cases hp
  | cons q t ih =>
    intro m p hp
    unfold addParticipants
    rw [List.foldl_cons]
    rcases List.mem_cons.mp hp with rfl | hpt
    · by_cases hq : (mapLookup m p.userId).isSome
      · rw [if_pos hq]
        exact addParticipants_isSome_preserve t m p.userId hq
      · rw [if_neg hq]
        exact addParticipants_isSome_preserve t _ p.userId
          (mapSet_isSome_self m p.userId _)
    · by_cases hq : (mapLookup m q.userId).isSome
      · rw [if_pos hq]
        exact ih m p hpt
      · rw [if_neg hq]
        exact ih _ p hpt

/-- C5 example data: four completions worth 10, 10, 8 and 5 points. -/
def lbExCompletions : List Completion :=
  [{ userId := "u1", taskTemplateId := "t1", weekId := "wk",
     challengeId := "ch", displayName := "A", taskPoints := 10 },
   { userId := "u2", taskTemplateId := "t1", weekId := "wk",
     challengeId := "ch", displayName := "B", taskPoints := 10 },
   { userId := "u3", taskTemplateId := "t1", weekId := "wk",
     challengeId := "ch", displayName := "C", taskPoints := 8 },
   { userId := "u4", taskTemplateId := "t1", weekId := "wk",
     challengeId := "ch", displayName := "D", taskPoints := 5 }]

/-- C5 example data: the four scoring participants. -/
def lbExParticipants : List Participant :=
  [{ userId := "u1", challengeId := "ch", displayName := "A" },
   { userId := "u2", challengeId := "ch", displayName := "B" },
   { userId := "u3", challengeId := "ch", displayName := "C" },
   { userId := "u4", challengeId := "ch", displayName := "D" }]

/-- C5 example data: the four scoring participants plus one with no
completions. -/
def lbExParticipantsZero : List Participant :=
  lbExParticipants ++
    [{ userId := "u5", challengeId := "ch", displayName := "E" }]

/-- C5: the weekly leaderboard includes every Participant of the
competition (zero-scorers included), sorts descending by points, shares
ranks between equal scores, flags a row tied exactly when a neighbouring
row in sorted order has equal points, and gives the next distinct score
rank previous-index + 2; scores [10, 10, 8, 5] produce ranks [1, 1, 3, 4]
with both rank-1 rows tied, and a participant with zero completions still
appears with zero points. -/
theorem weeklyLeaderboard_spec (completions : List Completion)
    (participants : List Participant) (challengeId weekId : String) :
    (∀ p ∈ participants, p.challengeId = challengeId →
      ∃ row ∈ getWeeklyLeaderboard completions participants challengeId
        weekId, row.userId = p.userId) ∧
    ((getWeeklyLeaderboard completions participants challengeId
      weekId).map (fun r => r.points)).Sorted (· ≥ ·) ∧
    (∀ u, (getWeeklyLeaderboard completions participants challengeId
        weekId).get? 0 = some u → u.rank = 1) ∧
    (∀ j u v,
      (getWeeklyLeaderboard completions participants challengeId
        weekId).get? j = some u →
      (getWeeklyLeaderboard completions participants challengeId
        weekId).get? (j + 1) = some v →
      (v.points = u.points → v.rank = u.rank) ∧
      (v.points ≠ u.points → v.rank = j + 2)) ∧
    (∀ j u,
      (getWeeklyLeaderboard completions participants challengeId
        weekId).get? j = some u →
      (u.tied = true ↔
        (j ≠ 0 ∧ ∃ w, (getWeeklyLeaderboard completions participants
          challengeId weekId).get? (j - 1) = some w ∧
          u.points = w.points) ∨
        (∃ w, (getWeeklyLeaderboard completions participants challengeId
          weekId).get? (j + 1) = some w ∧ u.points = w.points))) ∧
    (getWeeklyLeaderboard lbExCompletions lbExParticipants "ch" "wk").map
      (fun r => (r.points, r.rank, r.tied)) =
      [(10, 1, true), (10, 1, true), (8, 3, false), (5, 4, false)] ∧
    (getWeeklyLeaderboard lbExCompletions lbExParticipantsZero "ch"
      "wk").map (fun r => (r.userId, r.points, r.rank)) =
      [("u1", 10, 1), ("u2", 10, 1), ("u3", 8, 3), ("u4", 5, 4),
        ("u5", 0, 5)] := by
  simp only [getWeeklyLeaderboard]
  refine ⟨?_, ?_, ?_, ?_, ?_, by decide, by decide⟩
  · intro p hp hpc
    have hfp : p ∈ participants.filter
        (fun p => p.challengeId = challengeId) :=
      List.mem_filter.mpr ⟨hp, by simpa using hpc⟩
    have hsome := addParticipants_isSome_mem _
      (accumulatePoints (completions.filter (fun c =>
        c.challengeId = challengeId && c.weekId = weekId))) p hfp
    obtain ⟨kv, hkv, hk⟩ := (mapLookup_isSome_iff _ _).mp hsome
    have hkv' : kv ∈ List.insertionSort (fun a b => b.2.2 ≤ a.2.2)
        (addParticipants (accumulatePoints (completions.filter (fun c =>
          c.challengeId = challengeId && c.weekId = weekId)))
          (participants.filter (fun p => p.challengeId = challengeId))) :=
      ((List.perm_insertionSort _ _).mem_iff).mpr hkv
    obtain ⟨row, hrow, h1, h2⟩ := rankGo_mem _ 0 1 none kv hkv'
    exact ⟨row, hrow, by rw [h1, hk]⟩
  · rw [rankGo_points]
    haveI : IsTotal (String × String × Int)
        (fun a b => b.2.2 ≤ a.2.2) := ⟨fun a b => le_total b.2.2 a.2.2⟩
    haveI : IsTrans (String × String × Int)
        (fun a b => b.2.2 ≤ a.2.2) := ⟨fun a b c hab hbc => le_trans hbc hab⟩
    have hs := List.sorted_insertionSort (fun a b => b.2.2 ≤ a.2.2)
      (addParticipants (accumulatePoints (completions.filter (fun c =>
        c.challengeId = challengeId && c.weekId = weekId)))
        (participants.filter (fun p => p.challengeId = challengeId)))
    exact List.Pairwise.map _ (fun a b hab => hab) hs
  · intro u hu
    exact rankGo_rank_zero _ 0 1 none u hu
  · intro j u v hu hv
    have h := rankGo_rank_step _ 0 1 none j u v hu hv
    exact ⟨h.1, fun hne => by rw [h.2 hne]; omega⟩
  · intro j u hu
    have h := rankGo_tied_get _ 0 1 none j u hu
    rw [h]
    by_cases hj : j = 0
    · subst hj
      rw [if_pos rfl]
      rcases hnext : (rankGo 0 1 none (List.insertionSort
          (fun a b => b.2.2 ≤ a.2.2)
          (addParticipants (accumulatePoints (completions.filter (fun c =>
            c.challengeId = challengeId && c.weekId = weekId)))
            (participants.filter
              (fun p => p.challengeId = challengeId))))).get? 1
          with _ | w
      · simp [hnext]
      · simp [hnext]
    · rw [if_neg hj]
      rcases hprev : (rankGo 0 1 none (List.insertionSort
          (fun a b => b.2.2 ≤ a.2.2)
          (addParticipants (accumulatePoints (completions.filter (fun c =>
            c.challengeId = challengeId && c.weekId = weekId)))
            (participants.filter
              (fun p => p.challengeId = challengeId))))).get? (j - 1)
          with _ | w <;>
        rcases hnext : (rankGo 0 1 none (List.insertionSort
          (fun a b => b.2.2 ≤ a.2.2)
          (addParticipants (accumulatePoints (completions.filter (fun c =>
            c.challengeId = challengeId && c.weekId = weekId)))
            (participants.filter
              (fun p => p.challengeId = challengeId))))).get? (j + 1)
          with _ | w'
      · simp [hprev, hnext, hj]
      · simp [hprev, hnext, hj]
      · simp [hprev, hnext, hj]
      · simp [hprev, hnext, hj]

end PhiFit
